import Mathlib

/-!
Verification of the `libfmod-demos` examples, centred on the interactive
terminal harness (`examples/interactive_harness.rs`), the path helpers of
`src/lib.rs` and the demo selector of `examples/harness_demo.rs`.

The harness is embedded shallowly.  Engine handles are opaque to the Rust
code, so an event-instance handle is modelled by a fresh natural number
drawn from a counter, and every call the harness makes into the FMOD
engine is recorded as an `ECall` in a trace.  Fallibility of engine calls
is modelled by an oracle `fail : ECall → Bool` deciding which call fails;
the Rust `?` operator becomes an `Except Unit` error, and the Rust
`.ok()` suffix discards the oracle's verdict.  Float arithmetic on 3D
positions is modelled over `ℚ` (the claims under study are about which
component moves by which literal step, not about rounding).
-/

/-- Substring test on character lists: does `ndl` occur contiguously in `l`?
Mirrors Rust `str::contains`. -/
def listContains (ndl : List Char) : List Char → Bool
  | [] => ndl.isEmpty
  | c :: rest => ndl.isPrefixOf (c :: rest) || listContains ndl rest

/-- Rust `haystack.contains(needle)` for strings. -/
def strContains (hay ndl : String) : Bool :=
  listContains ndl.data hay.data

/-- A 3D vector (FMOD `Vector`), with `ℚ` standing in for `f32`. -/
structure Vec3 where
  x : ℚ
  y : ℚ
  z : ℚ
deriving DecidableEq, Repr

/-- Componentwise vector addition. -/
def Vec3.add (a b : Vec3) : Vec3 :=
  ⟨a.x + b.x, a.y + b.y, a.z + b.z⟩

/-- One call made by the harness into the FMOD engine.  Event-instance
handles are identified by the fresh number they were created with. -/
inductive ECall where
  | studioCreate
  | studioInit
  | loadBankFile (bname : String)
  | getEvent (path : String)
  | createInstance (slot inst : Nat)
  | set3dAttributes (inst : Nat) (pos : Vec3)
  | setParamByName (inst : Nat) (pname : String) (value : ℚ)
  | start (inst : Nat)
  | stopAllowFadeout (inst : Nat)
  | release (inst : Nat)
  | studioUpdate
  | unloadBank (bname : String)
  | studioRelease
deriving DecidableEq, Repr

/-- Failure oracle: which engine calls fail.  `noFail` is the success path. -/
def noFail : ECall → Bool := fun _ => false

/-- The mutable state of `HarnessState` (interactive_harness.rs, lines
20–37).  `event_descriptions` keeps only the path strings (the engine-side
description handle is opaque); `active_instances` is the `HashMap<usize,
EventInstance>` as an association list from slot to instance id; `next_id`
is the fresh-handle counter of the embedding.  Purely visual fields
(`last_update`, `frame_count`, `fps`) are omitted. -/
structure HarnessState where
  banks : List String
  event_descriptions : List String
  active_instances : List (Nat × Nat)
  selected_event : Nat
  selected_parameter : Nat
  listener_pos : Vec3
  source_pos : Vec3
  show_help : Bool
  next_id : Nat
deriving DecidableEq, Repr

/-- Rust `HashMap::contains_key`. -/
def containsSlot (m : List (Nat × Nat)) (i : Nat) : Bool :=
  m.any (fun p => p.1 = i)

/-- Lookup of the instance stored at a slot. -/
def lookupSlot (m : List (Nat × Nat)) (i : Nat) : Option Nat :=
  match m.find? (fun p => p.1 = i) with
  | some p => some p.2
  | none => none

/-- Rust `HashMap::remove`: drop the entry keyed by `i`. -/
def removeSlot (m : List (Nat × Nat)) (i : Nat) : List (Nat × Nat) :=
  m.filter (fun p => ¬ p.1 = i)

/-- Rust `HashMap::insert`. -/
def insertSlot (m : List (Nat × Nat)) (i v : Nat) : List (Nat × Nat) :=
  (i, v) :: removeSlot m i

/-- The pre-defined event paths of `HarnessState::new` (lines 59–66). -/
def eventPaths : List String :=
  ["event:/Ambience/Country",
   "event:/Character/Player Footsteps",
   "event:/Weapons/Explosion",
   "event:/UI/Cancel",
   "event:/Vehicles/Ride-on Mower",
   "event:/Music/Level 01"]

/-- The five bank files loaded by `HarnessState::new` (lines 49–53). -/
def bankFiles : List String :=
  ["Master.bank", "Master.strings.bank", "SFX.bank", "Music.bank",
   "Vehicles.bank"]

/-- Line 123: `path.contains("Footstep") || path.contains("Explosion")`. -/
def isOneShotPath (path : String) : Bool :=
  strContains path "Footstep" || strContains path "Explosion"

/-- Line 125: `path.contains("Vehicle") || path.contains("Ride-on Mower")`. -/
def isVehiclePath (path : String) : Bool :=
  strContains path "Vehicle" || strContains path "Ride-on Mower"

/-- The `Attributes3d` pushed for a source position always use zero
velocity, forward `(0,0,1)`, up `(0,1,0)`; only the position varies, so
the trace records just the position. -/
def attrCall (inst : Nat) (pos : Vec3) : ECall :=
  ECall.set3dAttributes inst pos

/-- Lines 133–144 of `play_event`: `start()?`, then either release the
one-shot instance or track it in the active-instance map. -/
def playFinish (fail : ECall → Bool) (st : HarnessState)
    (index inst : Nat) (is_one_shot : Bool) (cs : List ECall) :
    Except Unit (HarnessState × List ECall) :=
  if fail (ECall.start inst) then .error () else
  if is_one_shot then
    if fail (ECall.release inst) then .error () else
    .ok (st, cs ++ [ECall.start inst, ECall.release inst])
  else
    .ok ({ st with
            active_instances := insertSlot st.active_instances index inst },
         cs ++ [ECall.start inst])

/-- Function `HarnessState::play_event` (lines 105–145).  Returns the updated state
and the engine calls issued, or an error when a `?`-propagated call fails.
`set_3d_attributes(..).ok()` and `set_parameter_by_name("Surface",..).ok()`
ignore the oracle; `create_instance()?`, `set_parameter_by_name("RPM",..)?`,
`start()?` and `release()?` propagate. -/
def play_event (fail : ECall → Bool) (st : HarnessState) (index : Nat) :
    Except Unit (HarnessState × List ECall) :=
  if st.event_descriptions.length ≤ index then
    .ok (st, [])
  else
    let path := st.event_descriptions.getD index ""
    let inst := st.next_id
    if fail (ECall.createInstance index inst) then .error () else
    let st1 := { st with next_id := st.next_id + 1 }
    let cs0 := [ECall.createInstance index inst, attrCall inst st.source_pos]
    let is_one_shot := isOneShotPath path
    if isVehiclePath path then
      if fail (ECall.setParamByName inst "RPM" 1500) then .error () else
      playFinish fail st1 index inst is_one_shot
        (cs0 ++ [ECall.setParamByName inst "RPM" 1500])
    else if strContains path "Footstep" then
      playFinish fail st1 index inst is_one_shot
        (cs0 ++ [ECall.setParamByName inst "Surface" 1])
    else
      playFinish fail st1 index inst is_one_shot cs0

/-- Function `HarnessState::stop_event` (lines 147–153). -/
def stop_event (fail : ECall → Bool) (st : HarnessState) (index : Nat) :
    Except Unit (HarnessState × List ECall) :=
  match lookupSlot st.active_instances index with
  | none => .ok (st, [])
  | some inst =>
    if fail (ECall.stopAllowFadeout inst) then .error () else
    if fail (ECall.release inst) then .error () else
    .ok ({ st with active_instances := removeSlot st.active_instances index },
         [ECall.stopAllowFadeout inst, ECall.release inst])

/-- The per-entry body of the `drain()` loop of `stop_all_events`. -/
def drainStops (fail : ECall → Bool) : List (Nat × Nat) →
    Except Unit (List ECall)
  | [] => .ok []
  | (_, inst) :: rest =>
    if fail (ECall.stopAllowFadeout inst) then .error () else
    if fail (ECall.release inst) then .error () else
    match drainStops fail rest with
    | .error e => .error e
    | .ok cs =>
      .ok (ECall.stopAllowFadeout inst :: ECall.release inst :: cs)

/-- Function `HarnessState::stop_all_events` (lines 155–161). -/
def stop_all_events (fail : ECall → Bool) (st : HarnessState) :
    Except Unit (HarnessState × List ECall) :=
  match drainStops fail st.active_instances with
  | .error e => .error e
  | .ok cs => .ok ({ st with active_instances := [] }, cs)

/-- Function `HarnessState::move_source` (lines 163–180).  The 3D push to each
active instance uses `.ok()`, so this never returns an error. -/
def move_source (_fail : ECall → Bool) (st : HarnessState) (dx dy dz : ℚ) :
    Except Unit (HarnessState × List ECall) :=
  let pos : Vec3 := ⟨st.source_pos.x + dx, st.source_pos.y + dy,
                     st.source_pos.z + dz⟩
  .ok ({ st with source_pos := pos },
       st.active_instances.map (fun p => attrCall p.2 pos))

/-- Function `HarnessState::adjust_parameter` (lines 182–190).  Both parameter sets
use `.ok()`, so this never returns an error. -/
def adjust_parameter (_fail : ECall → Bool) (st : HarnessState) (delta : ℚ) :
    Except Unit (HarnessState × List ECall) :=
  .ok (st,
       st.active_instances.flatMap (fun p =>
         [ECall.setParamByName p.2 "RPM" (2000 + delta * 1000),
          ECall.setParamByName p.2 "Surface" delta]))

/-- A key press as delivered by crossterm: the key code and whether the
SHIFT modifier is held. -/
inductive KeyCode where
  | esc
  | char (c : Char)
  | other
deriving DecidableEq, Repr

structure KeyPress where
  code : KeyCode
  shift : Bool
deriving DecidableEq, Repr

/-- The action a key press selects in the `match code` of `main`
(interactive_harness.rs, lines 322–421). -/
inductive HAction where
  | none
  | quit
  | toggleHelp
  | toggle (i : Nat)
  | stopAll
  | move (dx dy dz : ℚ)
  | resetPos
  | adjParam (delta : ℚ)
deriving DecidableEq, Repr

/-- The key-to-action table of `main`'s dispatcher.  `nEvents` is
`state.event_descriptions.len()`, used by the guards on keys `2`–`6`;
a guarded key whose guard fails falls through to the `_ => {}` arm. -/
def keyAction (nEvents : Nat) (kp : KeyPress) : HAction :=
  match kp.code with
  | .esc => .quit
  | .other => .none
  | .char c =>
    let step : ℚ := if kp.shift then 1/10 else 1
    match c with
    | 'h' | 'H' => .toggleHelp
    | '1' => .toggle 0
    | '2' => if 1 < nEvents then .toggle 1 else .none
    | '3' => if 2 < nEvents then .toggle 2 else .none
    | '4' => if 3 < nEvents then .toggle 3 else .none
    | '5' => if 4 < nEvents then .toggle 4 else .none
    | '6' => if 5 < nEvents then .toggle 5 else .none
    | ' ' => .stopAll
    | 'w' | 'W' => .move 0 0 (-step)
    | 's' | 'S' => .move 0 0 step
    | 'a' | 'A' => .move (-step) 0 0
    | 'd' | 'D' => .move step 0 0
    | 'q' | 'Q' => .move 0 step 0
    | 'e' | 'E' => .move 0 (-step) 0
    | 'r' | 'R' => .resetPos
    | '+' | '=' => .adjParam (1/10)
    | '-' | '_' => .adjParam (-(1/10))
    | _ => .none

/-- Execute the handler arm selected for a key press (the bodies of the
match arms of lines 322–421).  Keys `1`–`6` toggle: stop when the slot is
in the active map, play otherwise; `r`/`R` sets the source position to the
literal default and then calls `move_source(0.0, 0.0, 0.0)`. -/
def applyAction (fail : ECall → Bool) (st : HarnessState) :
    HAction → Except Unit (HarnessState × List ECall)
  | .none => .ok (st, [])
  | .quit => .ok (st, [])
  | .toggleHelp => .ok ({ st with show_help := !st.show_help }, [])
  | .toggle i =>
    if containsSlot st.active_instances i then stop_event fail st i
    else play_event fail st i
  | .stopAll => stop_all_events fail st
  | .move dx dy dz => move_source fail st dx dy dz
  | .resetPos =>
    move_source fail { st with source_pos := ⟨0, 0, -5⟩ } 0 0 0
  | .adjParam delta => adjust_parameter fail st delta

/-- One key press through the dispatcher. -/
def dispatch (fail : ECall → Bool) (st : HarnessState) (kp : KeyPress) :
    Except Unit (HarnessState × List ECall) :=
  applyAction fail st (keyAction st.event_descriptions.length kp)

/-- Call `studio.load_bank_file(..)?` for each bank file of `HarnessState::new`. -/
def loadAllBanks (fail : ECall → Bool) : List String →
    Except Unit (List ECall)
  | [] => .ok []
  | b :: rest =>
    if fail (ECall.loadBankFile b) then .error () else
    match loadAllBanks fail rest with
    | .error e => .error e
    | .ok cs => .ok (ECall.loadBankFile b :: cs)

/-- The state `HarnessState::new` hands back on success (lines 74–87):
no active instances, source at the literal default `(0, 0, -5)`, listener
at the origin, and the event descriptions that `get_event` found. -/
def initStateF (found : String → Bool) : HarnessState :=
  { banks := bankFiles,
    event_descriptions := eventPaths.filter found,
    active_instances := [],
    selected_event := 0,
    selected_parameter := 0,
    listener_pos := ⟨0, 0, 0⟩,
    source_pos := ⟨0, 0, -5⟩,
    show_help := false,
    next_id := 0 }

/-- The engine calls `HarnessState::new` makes on success. -/
def initCalls : List ECall :=
  ECall.studioCreate :: ECall.studioInit ::
    bankFiles.map ECall.loadBankFile ++ eventPaths.map ECall.getEvent

/-- Function `HarnessState::new` (lines 40–88).  `found` says which of the six
pre-defined event paths `studio.get_event` succeeds on; a failed lookup is
swallowed by the `if let Ok(desc)` and the event is simply not listed. -/
def initHarness (fail : ECall → Bool) (found : String → Bool) :
    Except Unit (HarnessState × List ECall) :=
  if fail ECall.studioCreate then .error () else
  if fail ECall.studioInit then .error () else
  match loadAllBanks fail bankFiles with
  | .error e => .error e
  | .ok bankCs =>
    .ok (initStateF found,
         ECall.studioCreate :: ECall.studioInit :: bankCs
           ++ eventPaths.map ECall.getEvent)

/-- The main loop (lines 312–424) over a finite sequence of polled key
presses: each iteration performs `state.update()?` and then dispatches the
key; `Esc` breaks out of the loop.  Frames in which `event::poll` returns
no key only repeat `update` and are not modelled individually. -/
def runLoop (fail : ECall → Bool) :
    List KeyPress → HarnessState → Except Unit (HarnessState × List ECall)
  | [], st => .ok (st, [])
  | kp :: rest, st =>
    if fail ECall.studioUpdate then .error () else
    if keyAction st.event_descriptions.length kp = HAction.quit then
      .ok (st, [ECall.studioUpdate])
    else
      match dispatch fail st kp with
      | .error e => .error e
      | .ok (st1, cs) =>
        match runLoop fail rest st1 with
        | .error e => .error e
        | .ok (st2, cs2) => .ok (st2, ECall.studioUpdate :: (cs ++ cs2))

/-- Call `bank.unload()?` for each loaded bank, in load order. -/
def unloadAllBanks (fail : ECall → Bool) : List String →
    Except Unit (List ECall)
  | [] => .ok []
  | b :: rest =>
    if fail (ECall.unloadBank b) then .error () else
    match unloadAllBanks fail rest with
    | .error e => .error e
    | .ok cs => .ok (ECall.unloadBank b :: cs)

/-- The cleanup block of `main` (lines 426–431): stop all events, unload
every bank, release the studio session. -/
def cleanup (fail : ECall → Bool) (st : HarnessState) :
    Except Unit (HarnessState × List ECall) :=
  match stop_all_events fail st with
  | .error e => .error e
  | .ok (st1, cs) =>
    match unloadAllBanks fail st1.banks with
    | .error e => .error e
    | .ok cs2 =>
      if fail ECall.studioRelease then .error () else
      .ok (st1, cs ++ cs2 ++ [ECall.studioRelease])

/-- Function `main` of the interactive harness: initialise, run the loop on the
polled key presses, clean up.  Returns the final state and the complete
trace of engine calls. -/
def harness_main (fail : ECall → Bool) (found : String → Bool)
    (keys : List KeyPress) : Except Unit (HarnessState × List ECall) :=
  match initHarness fail found with
  | .error e => .error e
  | .ok (st0, cs0) =>
    match runLoop fail keys st0 with
    | .error e => .error e
    | .ok (st1, cs1) =>
      match cleanup fail st1 with
      | .error e => .error e
      | .ok (st2, cs2) => .ok (st2, cs0 ++ cs1 ++ cs2)

/-- The state reached by the loop on the success path (all engine calls
succeed), starting from a fresh harness. -/
def runState (found : String → Bool) (keys : List KeyPress) : HarnessState :=
  match runLoop noFail keys
      ((initHarness noFail found).toOption.getD
        (⟨[], [], [], 0, 0, ⟨0, 0, 0⟩, ⟨0, 0, -5⟩, false, 0⟩, [])).1 with
  | .ok (st, _) => st
  | .error _ =>
    (⟨[], [], [], 0, 0, ⟨0, 0, 0⟩, ⟨0, 0, -5⟩, false, 0⟩ : HarnessState)

/-- The final state and full trace of a success-path run of the harness. -/
def runH (found : String → Bool) (keys : List KeyPress) :
    HarnessState × List ECall :=
  match harness_main noFail found keys with
  | .ok r => r
  | .error _ =>
    (⟨[], [], [], 0, 0, ⟨0, 0, 0⟩, ⟨0, 0, -5⟩, false, 0⟩, [])

/-- Lifecycle stages of an event instance, for reading a trace. -/
inductive LTag where
  | created
  | started
  | stopped
  | released
deriving DecidableEq, Repr

/-- The lifecycle stage (if any) an engine call represents for the
instance `id`.  Parameter and 3D-attribute pushes are not lifecycle
transitions. -/
def lifeTag (id : Nat) : ECall → Option LTag
  | .createInstance _ i => if i = id then some LTag.created else none
  | .start i => if i = id then some LTag.started else none
  | .stopAllowFadeout i => if i = id then some LTag.stopped else none
  | .release i => if i = id then some LTag.released else none
  | _ => none

/-- The lifecycle of instance `id` in a trace: its create/start/stop/
release events, in order. -/
def lifeTrace (tr : List ECall) (id : Nat) : List LTag :=
  tr.filterMap (lifeTag id)

/-- The values (instance ids) stored in the active-instance map. -/
def activeVals (st : HarnessState) : List Nat :=
  st.active_instances.map Prod.snd

/-- The number-key press for slot `i` (`'1'` toggles slot 0, …, `'6'`
toggles slot 5), without SHIFT. -/
def numKey (i : Nat) : KeyPress :=
  ⟨KeyCode.char (["1", "2", "3", "4", "5", "6"].getD i "1").front, false⟩

/-- Function `get_fmod_sdk_dir` of `src/lib.rs` (lines 4–7): the process
environment is modelled as a partial map from variable names to values. -/
def get_fmod_sdk_dir (env : String → Option String) :
    Except String String :=
  match env "FMOD_SDK_DIR" with
  | some v => .ok v
  | none =>
    .error
      "FMOD_SDK_DIR environment variable not set. Please set it to your FMOD SDK path."

/-- Function `get_example_banks_dir` of `src/lib.rs` (lines 10–12). -/
def get_example_banks_dir (env : String → Option String) :
    Except String String :=
  match get_fmod_sdk_dir env with
  | .ok dir => .ok (dir ++ "/api/studio/examples/media")
  | .error e => .error e

/-- Function `get_example_bank_path` of `src/lib.rs` (lines 15–17). -/
def get_example_bank_path (env : String → Option String)
    (bank_name : String) : Except String String :=
  match get_example_banks_dir env with
  | .ok dir => .ok (dir ++ "/" ++ bank_name)
  | .error e => .error e

/-- The demo-name selection of `harness_demo.rs` `main` (lines 15–20):
`args` is the full argument vector including the program name;
`args[1]` is taken when present, else `"all"`. -/
def demoName (args : List String) : String :=
  if 1 < args.length then args.getD 1 "" else "all"

@[simp]
theorem noFail_eq (c : ECall) : noFail c = false := rfl

theorem loadAllBanks_noFail (l : List String) :
    loadAllBanks noFail l = .ok (l.map ECall.loadBankFile) := by
  induction l with
  | nil => rfl
  | cons b rest ih => simp [loadAllBanks, ih]

theorem unloadAllBanks_noFail (l : List String) :
    unloadAllBanks noFail l = .ok (l.map ECall.unloadBank) := by
  induction l with
  | nil => rfl
  | cons b rest ih => simp [unloadAllBanks, ih]

theorem initHarness_noFail (found : String → Bool) :
    initHarness noFail found = .ok (initStateF found, initCalls) := by
  simp [initHarness, loadAllBanks_noFail, initCalls]

theorem drainStops_noFail (m : List (Nat × Nat)) :
    drainStops noFail m =
      .ok (m.flatMap (fun p =>
        [ECall.stopAllowFadeout p.2, ECall.release p.2])) := by
  induction m with
  | nil => rfl
  | cons p rest ih => simp [drainStops, ih]

theorem stop_all_events_noFail (st : HarnessState) :
    stop_all_events noFail st =
      .ok ({ st with active_instances := [] },
        st.active_instances.flatMap (fun p =>
          [ECall.stopAllowFadeout p.2, ECall.release p.2])) := by
  simp [stop_all_events, drainStops_noFail]

theorem mem_removeSlot (m : List (Nat × Nat)) (i : Nat) (p : Nat × Nat) :
    p ∈ removeSlot m i ↔ p ∈ m ∧ p.1 ≠ i := by
  simp [removeSlot, List.mem_filter]

theorem containsSlot_false_lookup (m : List (Nat × Nat)) (i : Nat)
    (h : containsSlot m i = false) : lookupSlot m i = none := by
  simp only [containsSlot, List.any_eq_false, decide_eq_true_eq] at h
  simp only [lookupSlot]
  cases hf : m.find? (fun p => p.1 = i) with
  | none => rfl
  | some p =>
    have := List.find?_some hf
    have hm := List.mem_of_find?_eq_some hf
    simp only [decide_eq_true_eq] at this
    exact absurd this (h p hm)

theorem lookupSlot_mem (m : List (Nat × Nat)) (i v : Nat)
    (h : lookupSlot m i = some v) : (i, v) ∈ m := by
  simp only [lookupSlot] at h
  cases hf : m.find? (fun p => p.1 = i) with
  | none => simp [hf] at h
  | some p =>
    simp only [hf] at h
    have hkey := List.find?_some hf
    have hm := List.mem_of_find?_eq_some hf
    simp only [decide_eq_true_eq] at hkey
    cases h
    have : p = (i, p.2) := by
      cases p; simp_all
    rw [this] at hm
    exact hm

theorem lifeTrace_append (a b : List ECall) (id : Nat) :
    lifeTrace (a ++ b) id = lifeTrace a id ++ lifeTrace b id := by
  simp [lifeTrace]

theorem lifeTrace_nil (id : Nat) : lifeTrace [] id = [] := rfl

theorem lifeTrace_map_getEvent (l : List String) (id : Nat) :
    lifeTrace (l.map ECall.getEvent) id = [] := by
  induction l with
  | nil => rfl
  | cons p rest ih => simp [lifeTrace, lifeTag, ih]

theorem lifeTrace_map_loadBank (l : List String) (id : Nat) :
    lifeTrace (l.map ECall.loadBankFile) id = [] := by
  induction l with
  | nil => rfl
  | cons p rest ih => simp [lifeTrace, lifeTag, ih]

theorem lifeTrace_initCalls (id : Nat) : lifeTrace initCalls id = [] := by
  simp [initCalls, lifeTrace, lifeTag, lifeTrace_map_getEvent,
    lifeTrace_map_loadBank]

theorem lifeTrace_map_attr (m : List (Nat × Nat)) (pos : Vec3) (id : Nat) :
    lifeTrace (m.map (fun p => attrCall p.2 pos)) id = [] := by
  induction m with
  | nil => rfl
  | cons p rest ih => simp [lifeTrace, lifeTag, attrCall, ih]

theorem lifeTrace_flatMap_params (m : List (Nat × Nat)) (a b : ℚ) (id : Nat) :
    lifeTrace (m.flatMap (fun p =>
      [ECall.setParamByName p.2 "RPM" a,
       ECall.setParamByName p.2 "Surface" b])) id = [] := by
  induction m with
  | nil => rfl
  | cons p rest ih => simpa [lifeTrace, lifeTag] using ih

/-- The parameter calls of `play_event` lines 125–131, by event path. -/
def playParamCalls (path : String) (n : Nat) : List ECall :=
  if isVehiclePath path then [ECall.setParamByName n "RPM" 1500]
  else if strContains path "Footstep" then [ECall.setParamByName n "Surface" 1]
  else []

/-- The calls of `play_event` up to (not including) `start()`. -/
def playCallsPre (st : HarnessState) (i : Nat) : List ECall :=
  [ECall.createInstance i st.next_id, attrCall st.next_id st.source_pos]
    ++ playParamCalls (st.event_descriptions.getD i "") st.next_id

theorem play_event_noFail_oob (fail : ECall → Bool) (st : HarnessState)
    (i : Nat) (h : st.event_descriptions.length ≤ i) :
    play_event fail st i = .ok (st, []) := by
  simp [play_event, h]

theorem play_event_noFail_oneShot (st : HarnessState) (i : Nat)
    (h1 : i < st.event_descriptions.length)
    (h2 : isOneShotPath (st.event_descriptions.getD i "") = true) :
    play_event noFail st i =
      .ok ({ st with next_id := st.next_id + 1 },
        playCallsPre st i
          ++ [ECall.start st.next_id, ECall.release st.next_id]) := by
  have hle : ¬ st.event_descriptions.length ≤ i := Nat.not_le.mpr h1
  simp only [play_event, playFinish, playCallsPre, playParamCalls, hle,
    if_false, noFail_eq, Bool.false_eq_true, h2, if_true]
  split
  · simp
  · split <;> simp

theorem play_event_noFail_tracked (st : HarnessState) (i : Nat)
    (h1 : i < st.event_descriptions.length)
    (h2 : isOneShotPath (st.event_descriptions.getD i "") = false) :
    play_event noFail st i =
      .ok ({ st with
              next_id := st.next_id + 1
              active_instances :=
                insertSlot st.active_instances i st.next_id },
        playCallsPre st i ++ [ECall.start st.next_id]) := by
  have hle : ¬ st.event_descriptions.length ≤ i := Nat.not_le.mpr h1
  simp only [play_event, playFinish, playCallsPre, playParamCalls, hle,
    if_false, noFail_eq, Bool.false_eq_true, h2, if_true]
  split
  · simp
  · split <;> simp

theorem lifeTrace_playParamCalls (path : String) (n id : Nat) :
    lifeTrace (playParamCalls path n) id = [] := by
  simp only [playParamCalls]
  split <;> try split
  all_goals simp [lifeTrace, lifeTag]

theorem lifeTrace_playCallsPre (st : HarnessState) (i id : Nat) :
    lifeTrace (playCallsPre st i) id =
      if st.next_id = id then [LTag.created] else [] := by
  simp only [playCallsPre, lifeTrace_append, lifeTrace_playParamCalls]
  split <;> simp_all [lifeTrace, lifeTag, attrCall]

theorem noTear_playParamCalls (path : String) (n : Nat) :
    ∀ c ∈ playParamCalls path n,
      (∀ b, c ≠ ECall.unloadBank b) ∧ c ≠ ECall.studioRelease := by
  simp only [playParamCalls]
  split <;> try split
  all_goals simp

theorem noTear_playCallsPre (st : HarnessState) (i : Nat) :
    ∀ c ∈ playCallsPre st i,
      (∀ b, c ≠ ECall.unloadBank b) ∧ c ≠ ECall.studioRelease := by
  intro c hc
  simp only [playCallsPre, List.mem_append, List.mem_cons] at hc
  rcases hc with ((h | h | h) | h)
  · subst h; simp
  · subst h; simp [attrCall]
  · simp at h
  · exact noTear_playParamCalls _ _ c h

/-- A call that is not part of teardown (no bank unload, no studio
release). -/
def notTear (c : ECall) : Prop :=
  (∀ b, c ≠ ECall.unloadBank b) ∧ c ≠ ECall.studioRelease

/-- Invariant tying the harness state to the engine-call trace produced
so far by a success-path run: the active map is well formed (fresh-bounded
distinct instance ids, distinct slots, every tracked slot is a known
non-one-shot event), unused ids have an empty lifecycle, tracked ids have
been created and started, retired ids have a complete lifecycle, and no
teardown call has happened. -/
structure RunInv (st : HarnessState) (tr : List ECall) : Prop where
  valsLt : ∀ p ∈ st.active_instances, p.2 < st.next_id
  valsNodup : (st.active_instances.map Prod.snd).Nodup
  keysNodup : (st.active_instances.map Prod.fst).Nodup
  slotsOk : ∀ p ∈ st.active_instances,
    p.1 < st.event_descriptions.length ∧
      isOneShotPath (st.event_descriptions.getD p.1 "") = false
  lifeFresh : ∀ id, st.next_id ≤ id → lifeTrace tr id = []
  lifeActive : ∀ p ∈ st.active_instances,
    lifeTrace tr p.2 = [LTag.created, LTag.started]
  lifeDone : ∀ id, id < st.next_id → id ∉ activeVals st →
    lifeTrace tr id =
        [LTag.created, LTag.started, LTag.stopped, LTag.released]
      ∨ lifeTrace tr id = [LTag.created, LTag.started, LTag.released]
  noTear : ∀ c ∈ tr, notTear c

theorem RunInv_init (found : String → Bool) :
    RunInv (initStateF found) initCalls := by
  refine ⟨?_, ?_, ?_, ?_, ?_, ?_, ?_, ?_⟩
  · intro p hp; cases hp
  · simp [initStateF]
  · simp [initStateF]
  · intro p hp; cases hp
  · intro id _; exact lifeTrace_initCalls id
  · intro p hp; cases hp
  · intro id h; simp [initStateF] at h
  · intro c hc
    simp only [initCalls, List.mem_cons, List.mem_append] at hc
    rcases hc with (rfl | rfl | hc) | hc
    · simp [notTear]
    · simp [notTear]
    · rcases List.mem_map.mp hc with ⟨b, _, rfl⟩; simp [notTear]
    · rcases List.mem_map.mp hc with ⟨p, _, rfl⟩; simp [notTear]

theorem containsSlot_iff (m : List (Nat × Nat)) (i : Nat) :
    containsSlot m i = true ↔ i ∈ m.map Prod.fst := by
  simp only [containsSlot, List.any_eq_true, decide_eq_true_eq, List.mem_map]

theorem removeSlot_of_not_contains (m : List (Nat × Nat)) (i : Nat)
    (h : containsSlot m i = false) : removeSlot m i = m := by
  apply List.filter_eq_self.mpr
  intro p hp
  simp only [containsSlot, List.any_eq_false, decide_eq_true_eq] at h
  simpa using h p hp

theorem lifeTrace_startRel (n id : Nat) :
    lifeTrace [ECall.start n, ECall.release n] id =
      if n = id then [LTag.started, LTag.released] else [] := by
  by_cases hid : n = id <;> simp [lifeTrace, lifeTag, hid]

theorem lifeTrace_startOnly (n id : Nat) :
    lifeTrace [ECall.start n] id =
      if n = id then [LTag.started] else [] := by
  by_cases hid : n = id <;> simp [lifeTrace, lifeTag, hid]

theorem lifeTrace_stopRel (n id : Nat) :
    lifeTrace [ECall.stopAllowFadeout n, ECall.release n] id =
      if n = id then [LTag.stopped, LTag.released] else [] := by
  by_cases hid : n = id <;> simp [lifeTrace, lifeTag, hid]

theorem play_preserve_oneShot (st : HarnessState) (tr : List ECall) (i : Nat)
    (hInv : RunInv st tr) :
    RunInv { st with next_id := st.next_id + 1 }
      (tr ++ (playCallsPre st i
        ++ [ECall.start st.next_id, ECall.release st.next_id])) := by
  have hcs : ∀ id, lifeTrace (playCallsPre st i
      ++ [ECall.start st.next_id, ECall.release st.next_id]) id =
      if st.next_id = id then [LTag.created, LTag.started, LTag.released]
      else [] := by
    intro id
    rw [lifeTrace_append, lifeTrace_playCallsPre, lifeTrace_startRel]
    by_cases hid : st.next_id = id
    · rw [if_pos hid, if_pos hid, if_pos hid]; rfl
    · rw [if_neg hid, if_neg hid, if_neg hid]; rfl
  refine ⟨?_, ?_, ?_, ?_, ?_, ?_, ?_, ?_⟩
  · intro p hp; exact Nat.lt_succ_of_lt (hInv.valsLt p hp)
  · exact hInv.valsNodup
  · exact hInv.keysNodup
  · exact hInv.slotsOk
  · intro id hid
    dsimp only at hid
    rw [lifeTrace_append, hInv.lifeFresh id (by omega), hcs,
      if_neg (by omega)]
    rfl
  · intro p hp
    dsimp only at hp
    have hlt := hInv.valsLt p hp
    rw [lifeTrace_append, hInv.lifeActive p hp, hcs, if_neg (by omega)]
    rfl
  · intro id hid hnin
    dsimp only at hid
    have hnin' : id ∉ activeVals st := hnin
    by_cases hideq : id = st.next_id
    · right
      rw [lifeTrace_append,
        hInv.lifeFresh id (le_of_eq hideq.symm), hcs, if_pos hideq.symm]
      rfl
    · have hid2 : id < st.next_id := by omega
      rcases hInv.lifeDone id hid2 hnin' with h1 | h1
      · left; rw [lifeTrace_append, h1, hcs, if_neg (by omega)]; rfl
      · right; rw [lifeTrace_append, h1, hcs, if_neg (by omega)]; rfl
  · intro c hc
    rcases List.mem_append.mp hc with hc | hc
    · exact hInv.noTear c hc
    · rcases List.mem_append.mp hc with hc | hc
      · exact noTear_playCallsPre st i c hc
      · simp only [List.mem_cons, List.not_mem_nil, or_false] at hc
        rcases hc with rfl | rfl
        · simp [notTear]
        · simp [notTear]

theorem play_preserve_tracked (st : HarnessState) (tr : List ECall) (i : Nat)
    (hInv : RunInv st tr)
    (hni : containsSlot st.active_instances i = false)
    (hlen : i < st.event_descriptions.length)
    (hos : isOneShotPath (st.event_descriptions.getD i "") = false) :
    RunInv { st with
        next_id := st.next_id + 1
        active_instances := insertSlot st.active_instances i st.next_id }
      (tr ++ (playCallsPre st i ++ [ECall.start st.next_id])) := by
  have hins : insertSlot st.active_instances i st.next_id
      = (i, st.next_id) :: st.active_instances := by
    rw [insertSlot, removeSlot_of_not_contains _ _ hni]
  have hnk : i ∉ st.active_instances.map Prod.fst := by
    intro hm
    rw [← containsSlot_iff] at hm
    rw [hni] at hm
    cases hm
  have hcs : ∀ id, lifeTrace (playCallsPre st i
      ++ [ECall.start st.next_id]) id =
      if st.next_id = id then [LTag.created, LTag.started] else [] := by
    intro id
    rw [lifeTrace_append, lifeTrace_playCallsPre, lifeTrace_startOnly]
    by_cases hid : st.next_id = id
    · rw [if_pos hid, if_pos hid, if_pos hid]; rfl
    · rw [if_neg hid, if_neg hid, if_neg hid]; rfl
  refine ⟨?_, ?_, ?_, ?_, ?_, ?_, ?_, ?_⟩
  · intro p hp
    dsimp only at hp
    rw [hins] at hp
    rcases List.mem_cons.mp hp with rfl | hp
    · exact Nat.lt_succ_self _
    · exact Nat.lt_succ_of_lt (hInv.valsLt p hp)
  · dsimp only
    rw [hins]
    simp only [List.map_cons, List.nodup_cons]
    constructor
    · intro hm
      rcases List.mem_map.mp hm with ⟨p, hp, hps⟩
      exact absurd hps (Nat.ne_of_lt (hInv.valsLt p hp))
    · exact hInv.valsNodup
  · dsimp only
    rw [hins]
    simp only [List.map_cons, List.nodup_cons]
    exact ⟨hnk, hInv.keysNodup⟩
  · intro p hp
    dsimp only at hp ⊢
    rw [hins] at hp
    rcases List.mem_cons.mp hp with rfl | hp
    · exact ⟨hlen, hos⟩
    · exact hInv.slotsOk p hp
  · intro id hid
    dsimp only at hid
    rw [lifeTrace_append, hInv.lifeFresh id (by omega), hcs,
      if_neg (by omega)]
    rfl
  · intro p hp
    dsimp only at hp
    rw [hins] at hp
    rcases List.mem_cons.mp hp with rfl | hp
    · rw [lifeTrace_append, hInv.lifeFresh st.next_id le_rfl, hcs,
        if_pos rfl]
      rfl
    · have hlt := hInv.valsLt p hp
      rw [lifeTrace_append, hInv.lifeActive p hp, hcs, if_neg (by omega)]
      rfl
  · intro id hid hnin
    dsimp only at hid
    have hnin2 : id ∉ activeVals st ∧ id ≠ st.next_id := by
      constructor
      · intro hm
        apply hnin
        show id ∈ ((insertSlot st.active_instances i st.next_id).map
          Prod.snd)
        rw [hins]
        simp only [List.map_cons, List.mem_cons]
        exact Or.inr hm
      · intro heq
        apply hnin
        show id ∈ ((insertSlot st.active_instances i st.next_id).map
          Prod.snd)
        rw [hins]
        simp [heq]
    have hid2 : id < st.next_id := by
      have := hnin2.2
      omega
    rcases hInv.lifeDone id hid2 hnin2.1 with h1 | h1
    · left; rw [lifeTrace_append, h1, hcs, if_neg (by omega)]; rfl
    · right; rw [lifeTrace_append, h1, hcs, if_neg (by omega)]; rfl
  · intro c hc
    rcases List.mem_append.mp hc with hc | hc
    · exact hInv.noTear c hc
    · rcases List.mem_append.mp hc with hc | hc
      · exact noTear_playCallsPre st i c hc
      · simp only [List.mem_cons, List.not_mem_nil, or_false] at hc
        rcases hc with rfl
        simp [notTear]

theorem stop_preserve (st : HarnessState) (tr : List ECall) (i inst : Nat)
    (hInv : RunInv st tr)
    (hlk : lookupSlot st.active_instances i = some inst) :
    RunInv { st with active_instances := removeSlot st.active_instances i }
      (tr ++ [ECall.stopAllowFadeout inst, ECall.release inst]) := by
  have hmem : (i, inst) ∈ st.active_instances := lookupSlot_mem _ _ _ hlk
  have hsnd := List.inj_on_of_nodup_map hInv.valsNodup
  have hfst := List.inj_on_of_nodup_map hInv.keysNodup
  have hlt : inst < st.next_id := hInv.valsLt (i, inst) hmem
  refine ⟨?_, ?_, ?_, ?_, ?_, ?_, ?_, ?_⟩
  · intro p hp
    dsimp only at hp
    exact hInv.valsLt p ((mem_removeSlot _ _ _).mp hp).1
  · dsimp only
    exact hInv.valsNodup.sublist ((List.filter_sublist _).map Prod.snd)
  · dsimp only
    exact hInv.keysNodup.sublist ((List.filter_sublist _).map Prod.fst)
  · intro p hp
    dsimp only at hp ⊢
    exact hInv.slotsOk p ((mem_removeSlot _ _ _).mp hp).1
  · intro id hid
    dsimp only at hid
    rw [lifeTrace_append, hInv.lifeFresh id hid, lifeTrace_stopRel,
      if_neg (by omega)]
    rfl
  · intro p hp
    dsimp only at hp
    obtain ⟨hpm, hpk⟩ := (mem_removeSlot _ _ _).mp hp
    have hpi : p.2 ≠ inst := by
      intro he
      have : p = (i, inst) := hsnd hpm hmem he
      exact hpk (by rw [this])
    rw [lifeTrace_append, hInv.lifeActive p hpm, lifeTrace_stopRel,
      if_neg (fun he => hpi he.symm)]
    rfl
  · intro id hid hnin
    dsimp only at hid
    by_cases hideq : id = inst
    · left
      rw [lifeTrace_append, hideq, hInv.lifeActive (i, inst) hmem,
        lifeTrace_stopRel, if_pos rfl]
      rfl
    · have hnin' : id ∉ activeVals st := by
        intro hm
        rcases List.mem_map.mp hm with ⟨q, hq, hqs⟩
        by_cases hqk : q.1 = i
        · have : q = (i, inst) := hfst hq hmem hqk
          rw [this] at hqs
          exact hideq hqs.symm
        · apply hnin
          show id ∈ (removeSlot st.active_instances i).map Prod.snd
          exact List.mem_map.mpr
            ⟨q, (mem_removeSlot _ _ _).mpr ⟨hq, hqk⟩, hqs⟩
      rcases hInv.lifeDone id hid hnin' with h1 | h1
      · left
        rw [lifeTrace_append, h1, lifeTrace_stopRel,
          if_neg (fun he => hideq he.symm)]
        rfl
      · right
        rw [lifeTrace_append, h1, lifeTrace_stopRel,
          if_neg (fun he => hideq he.symm)]
        rfl
  · intro c hc
    rcases List.mem_append.mp hc with hc | hc
    · exact hInv.noTear c hc
    · simp only [List.mem_cons, List.not_mem_nil, or_false] at hc
      rcases hc with rfl | rfl
      · simp [notTear]
      · simp [notTear]

theorem lifeTrace_drainCalls (m : List (Nat × Nat))
    (h : (m.map Prod.snd).Nodup) (id : Nat) :
    lifeTrace (m.flatMap fun p =>
        [ECall.stopAllowFadeout p.2, ECall.release p.2]) id =
      if id ∈ m.map Prod.snd then [LTag.stopped, LTag.released] else [] := by
  induction m with
  | nil => simp [lifeTrace]
  | cons p rest ih =>
    simp only [List.map_cons, List.nodup_cons] at h
    rw [List.flatMap_cons, lifeTrace_append, lifeTrace_stopRel, ih h.2,
      List.map_cons]
    by_cases hid : p.2 = id
    · subst hid
      rw [if_pos rfl, if_neg h.1, if_pos (List.mem_cons_self _ _)]
      rfl
    · rw [if_neg hid]
      by_cases hm : id ∈ List.map Prod.snd rest
      · rw [if_pos hm, if_pos (List.mem_cons_of_mem _ hm)]
        rfl
      · rw [if_neg hm, if_neg (fun hh => by
          rcases List.mem_cons.mp hh with he | he
          · exact hid he.symm
          · exact hm he)]
        rfl

theorem noTear_drainCalls (m : List (Nat × Nat)) :
    ∀ c ∈ (m.flatMap fun p =>
        [ECall.stopAllowFadeout p.2, ECall.release p.2]), notTear c := by
  intro c hc
  rcases List.mem_flatMap.mp hc with ⟨p, _, hcp⟩
  simp only [List.mem_cons, List.not_mem_nil, or_false] at hcp
  rcases hcp with rfl | rfl
  · simp [notTear]
  · simp [notTear]

theorem stopAll_preserve (st : HarnessState) (tr : List ECall)
    (hInv : RunInv st tr) :
    RunInv { st with active_instances := [] }
      (tr ++ st.active_instances.flatMap (fun p =>
        [ECall.stopAllowFadeout p.2, ECall.release p.2])) := by
  refine ⟨?_, ?_, ?_, ?_, ?_, ?_, ?_, ?_⟩
  · intro p hp; cases hp
  · simp
  · simp
  · intro p hp; cases hp
  · intro id hid
    dsimp only at hid
    rw [lifeTrace_append, hInv.lifeFresh id hid,
      lifeTrace_drainCalls _ hInv.valsNodup,
      if_neg (fun hm => by
        rcases List.mem_map.mp hm with ⟨q, hq, hqs⟩
        exact absurd (hqs ▸ hInv.valsLt q hq) (by omega))]
    rfl
  · intro p hp; cases hp
  · intro id hid _
    dsimp only at hid
    by_cases hm : id ∈ List.map Prod.snd st.active_instances
    · left
      rcases List.mem_map.mp hm with ⟨q, hq, hqs⟩
      rw [lifeTrace_append, ← hqs, hInv.lifeActive q hq,
        lifeTrace_drainCalls _ hInv.valsNodup, if_pos (hqs ▸ hm)]
      rfl
    · have hm2 : id ∉ activeVals st := hm
      rcases hInv.lifeDone id hid hm2 with h1 | h1
      · left
        rw [lifeTrace_append, h1,
          lifeTrace_drainCalls _ hInv.valsNodup, if_neg hm]
        rfl
      · right
        rw [lifeTrace_append, h1,
          lifeTrace_drainCalls _ hInv.valsNodup, if_neg hm]
        rfl
  · intro c hc
    rcases List.mem_append.mp hc with hc | hc
    · exact hInv.noTear c hc
    · exact noTear_drainCalls _ c hc

theorem lifeTrace_attrMap (m : List (Nat × Nat)) (pos : Vec3) (id : Nat) :
    lifeTrace (m.map (fun p => attrCall p.2 pos)) id = [] :=
  lifeTrace_map_attr m pos id

theorem move_preserve (st : HarnessState) (tr : List ECall) (pos : Vec3)
    (m : List (Nat × Nat)) (hm : m = st.active_instances)
    (hInv : RunInv st tr) :
    RunInv { st with source_pos := pos }
      (tr ++ m.map (fun p => attrCall p.2 pos)) := by
  subst hm
  refine ⟨?_, ?_, ?_, ?_, ?_, ?_, ?_, ?_⟩
  · exact hInv.valsLt
  · exact hInv.valsNodup
  · exact hInv.keysNodup
  · exact hInv.slotsOk
  · intro id hid
    rw [lifeTrace_append, hInv.lifeFresh id hid, lifeTrace_attrMap]
    rfl
  · intro p hp
    rw [lifeTrace_append, hInv.lifeActive p hp, lifeTrace_attrMap]
    rfl
  · intro id hid hnin
    rcases hInv.lifeDone id hid hnin with h1 | h1
    · left; rw [lifeTrace_append, h1, lifeTrace_attrMap]; rfl
    · right; rw [lifeTrace_append, h1, lifeTrace_attrMap]; rfl
  · intro c hc
    rcases List.mem_append.mp hc with hc | hc
    · exact hInv.noTear c hc
    · rcases List.mem_map.mp hc with ⟨p, _, rfl⟩
      simp [notTear, attrCall]

theorem adjust_preserve (st : HarnessState) (tr : List ECall) (delta : ℚ)
    (hInv : RunInv st tr) :
    RunInv st
      (tr ++ st.active_instances.flatMap (fun p =>
        [ECall.setParamByName p.2 "RPM" (2000 + delta * 1000),
         ECall.setParamByName p.2 "Surface" delta])) := by
  refine ⟨hInv.valsLt, hInv.valsNodup, hInv.keysNodup, hInv.slotsOk,
    ?_, ?_, ?_, ?_⟩
  · intro id hid
    rw [lifeTrace_append, hInv.lifeFresh id hid, lifeTrace_flatMap_params]
    rfl
  · intro p hp
    rw [lifeTrace_append, hInv.lifeActive p hp, lifeTrace_flatMap_params]
    rfl
  · intro id hid hnin
    rcases hInv.lifeDone id hid hnin with h1 | h1
    · left; rw [lifeTrace_append, h1, lifeTrace_flatMap_params]; rfl
    · right; rw [lifeTrace_append, h1, lifeTrace_flatMap_params]; rfl
  · intro c hc
    rcases List.mem_append.mp hc with hc | hc
    · exact hInv.noTear c hc
    · rcases List.mem_flatMap.mp hc with ⟨p, _, hcp⟩
      simp only [List.mem_cons, List.not_mem_nil, or_false] at hcp
      rcases hcp with rfl | rfl
      · simp [notTear]
      · simp [notTear]

theorem help_preserve (st : HarnessState) (tr : List ECall) (b : Bool)
    (hInv : RunInv st tr) :
    RunInv { st with show_help := b } tr :=
  ⟨hInv.valsLt, hInv.valsNodup, hInv.keysNodup, hInv.slotsOk,
    hInv.lifeFresh, hInv.lifeActive, hInv.lifeDone, hInv.noTear⟩

theorem stop_event_none (fail : ECall → Bool) (st : HarnessState) (i : Nat)
    (hlk : lookupSlot st.active_instances i = none) :
    stop_event fail st i = .ok (st, []) := by
  simp [stop_event, hlk]

theorem stop_event_noFail_some (st : HarnessState) (i inst : Nat)
    (hlk : lookupSlot st.active_instances i = some inst) :
    stop_event noFail st i =
      .ok ({ st with active_instances := removeSlot st.active_instances i },
        [ECall.stopAllowFadeout inst, ECall.release inst]) := by
  simp [stop_event, hlk]

theorem move_source_eq (fail : ECall → Bool) (st : HarnessState)
    (dx dy dz : ℚ) :
    move_source fail st dx dy dz =
      .ok ({ st with source_pos := ⟨st.source_pos.x + dx,
              st.source_pos.y + dy, st.source_pos.z + dz⟩ },
        st.active_instances.map (fun p =>
          attrCall p.2 ⟨st.source_pos.x + dx, st.source_pos.y + dy,
            st.source_pos.z + dz⟩)) := rfl

theorem adjust_parameter_eq (fail : ECall → Bool) (st : HarnessState)
    (delta : ℚ) :
    adjust_parameter fail st delta =
      .ok (st, st.active_instances.flatMap (fun p =>
        [ECall.setParamByName p.2 "RPM" (2000 + delta * 1000),
         ECall.setParamByName p.2 "Surface" delta])) := rfl

theorem update_preserve (st : HarnessState) (tr : List ECall)
    (hInv : RunInv st tr) : RunInv st (tr ++ [ECall.studioUpdate]) := by
  have hlt : ∀ id, lifeTrace [ECall.studioUpdate] id = [] := fun _ => rfl
  refine ⟨hInv.valsLt, hInv.valsNodup, hInv.keysNodup, hInv.slotsOk,
    ?_, ?_, ?_, ?_⟩
  · intro id hid; rw [lifeTrace_append, hInv.lifeFresh id hid, hlt]; rfl
  · intro p hp; rw [lifeTrace_append, hInv.lifeActive p hp, hlt]; rfl
  · intro id hid hnin
    rcases hInv.lifeDone id hid hnin with h1 | h1
    · left; rw [lifeTrace_append, h1, hlt]; rfl
    · right; rw [lifeTrace_append, h1, hlt]; rfl
  · intro c hc
    rcases List.mem_append.mp hc with hc | hc
    · exact hInv.noTear c hc
    · simp only [List.mem_cons, List.not_mem_nil, or_false] at hc
      subst hc; simp [notTear]

theorem play_event_dispatch_preserve (st : HarnessState) (tr : List ECall)
    (i : Nat) (r : HarnessState × List ECall) (hInv : RunInv st tr)
    (hni : containsSlot st.active_instances i = false)
    (h : play_event noFail st i = .ok r) :
    RunInv r.1 (tr ++ r.2) ∧
      r.1.event_descriptions = st.event_descriptions ∧
      r.1.banks = st.banks := by
  by_cases hlen : st.event_descriptions.length ≤ i
  · rw [play_event_noFail_oob _ _ _ hlen] at h
    injection h with h
    subst h
    exact ⟨by rw [List.append_nil]; exact hInv, rfl, rfl⟩
  · push_neg at hlen
    by_cases hos : isOneShotPath (st.event_descriptions.getD i "") = true
    · rw [play_event_noFail_oneShot st i hlen hos] at h
      injection h with h
      subst h
      exact ⟨play_preserve_oneShot st tr i hInv, rfl, rfl⟩
    · have hos2 : isOneShotPath (st.event_descriptions.getD i "") = false :=
        Bool.not_eq_true _ ▸ Bool.eq_false_iff.mpr hos
      rw [play_event_noFail_tracked st i hlen hos2] at h
      injection h with h
      subst h
      exact ⟨play_preserve_tracked st tr i hInv hni hlen hos2, rfl, rfl⟩

theorem dispatch_preserve (st : HarnessState) (tr : List ECall)
    (kp : KeyPress) (r : HarnessState × List ECall) (hInv : RunInv st tr)
    (h : dispatch noFail st kp = .ok r) :
    RunInv r.1 (tr ++ r.2) ∧
      r.1.event_descriptions = st.event_descriptions ∧
      r.1.banks = st.banks := by
  unfold dispatch at h
  cases hka : keyAction st.event_descriptions.length kp with
  | none =>
    rw [hka] at h
    injection h with h
    subst h
    exact ⟨by rw [List.append_nil]; exact hInv, rfl, rfl⟩
  | quit =>
    rw [hka] at h
    injection h with h
    subst h
    exact ⟨by rw [List.append_nil]; exact hInv, rfl, rfl⟩
  | toggleHelp =>
    rw [hka] at h
    injection h with h
    subst h
    exact ⟨by rw [List.append_nil]; exact help_preserve st tr _ hInv,
      rfl, rfl⟩
  | toggle i =>
    rw [hka] at h
    simp only [applyAction] at h
    by_cases hcont : containsSlot st.active_instances i = true
    · rw [if_pos hcont] at h
      cases hlk : lookupSlot st.active_instances i with
      | none =>
        rw [stop_event_none _ _ _ hlk] at h
        injection h with h
        subst h
        exact ⟨by rw [List.append_nil]; exact hInv, rfl, rfl⟩
      | some inst =>
        rw [stop_event_noFail_some _ _ _ hlk] at h
        injection h with h
        subst h
        exact ⟨stop_preserve st tr i inst hInv hlk, rfl, rfl⟩
    · rw [if_neg hcont] at h
      exact play_event_dispatch_preserve st tr i r hInv
        (Bool.not_eq_true _ ▸ Bool.eq_false_iff.mpr hcont) h
  | stopAll =>
    rw [hka] at h
    simp only [applyAction] at h
    rw [stop_all_events_noFail] at h
    injection h with h
    subst h
    exact ⟨stopAll_preserve st tr hInv, rfl, rfl⟩
  | move dx dy dz =>
    rw [hka] at h
    simp only [applyAction] at h
    rw [move_source_eq] at h
    injection h with h
    subst h
    exact ⟨move_preserve st tr _ _ rfl hInv, rfl, rfl⟩
  | resetPos =>
    rw [hka] at h
    simp only [applyAction] at h
    rw [move_source_eq] at h
    injection h with h
    subst h
    refine ⟨?_, rfl, rfl⟩
    exact move_preserve st tr _ _ rfl hInv
  | adjParam delta =>
    rw [hka] at h
    simp only [applyAction] at h
    rw [adjust_parameter_eq] at h
    injection h with h
    subst h
    exact ⟨adjust_preserve st tr delta hInv, rfl, rfl⟩

theorem runLoop_preserve :
    ∀ (keys : List KeyPress) (st : HarnessState) (tr : List ECall)
      (r : HarnessState × List ECall),
      RunInv st tr → runLoop noFail keys st = .ok r →
      RunInv r.1 (tr ++ r.2) ∧
        r.1.event_descriptions = st.event_descriptions ∧
        r.1.banks = st.banks := by
  intro keys
  induction keys with
  | nil =>
    intro st tr r hInv h
    simp only [runLoop] at h
    injection h with h
    subst h
    exact ⟨by rw [List.append_nil]; exact hInv, rfl, rfl⟩
  | cons kp rest ih =>
    intro st tr r hInv h
    simp only [runLoop, noFail_eq, Bool.false_eq_true, if_false] at h
    by_cases hq : keyAction st.event_descriptions.length kp = HAction.quit
    · rw [if_pos hq] at h
      injection h with h
      subst h
      exact ⟨update_preserve st tr hInv, rfl, rfl⟩
    · rw [if_neg hq] at h
      cases hd : dispatch noFail st kp with
      | error e =>
        rw [hd] at h
        exact Except.noConfusion h
      | ok r1 =>
        obtain ⟨st1, cs1⟩ := r1
        rw [hd] at h
        dsimp only at h
        cases hrl : runLoop noFail rest st1 with
        | error e =>
          rw [hrl] at h
          exact Except.noConfusion h
        | ok r2 =>
          obtain ⟨st2, cs2⟩ := r2
          rw [hrl] at h
          dsimp only at h
          injection h with h
          subst h
          obtain ⟨hInv1, hed1, hbk1⟩ := dispatch_preserve st
            (tr ++ [ECall.studioUpdate]) kp (st1, cs1)
            (update_preserve st tr hInv) hd
          obtain ⟨hInv2, hed2, hbk2⟩ := ih st1
            ((tr ++ [ECall.studioUpdate]) ++ cs1) (st2, cs2) hInv1 hrl
          refine ⟨?_, by rw [hed2]; exact hed1, by rw [hbk2]; exact hbk1⟩
          have hassoc : tr ++ (ECall.studioUpdate :: (cs1 ++ cs2))
              = (((tr ++ [ECall.studioUpdate]) ++ cs1) ++ cs2) := by
            simp
          rw [hassoc]
          exact hInv2

theorem play_event_noFail_ok (st : HarnessState) (i : Nat) :
    ∃ r, play_event noFail st i = .ok r := by
  by_cases hlen : st.event_descriptions.length ≤ i
  · exact ⟨_, play_event_noFail_oob _ _ _ hlen⟩
  · push_neg at hlen
    by_cases hos : isOneShotPath (st.event_descriptions.getD i "") = true
    · exact ⟨_, play_event_noFail_oneShot st i hlen hos⟩
    · exact ⟨_, play_event_noFail_tracked st i hlen
        (Bool.not_eq_true _ ▸ Bool.eq_false_iff.mpr hos)⟩

theorem dispatch_noFail_ok (st : HarnessState) (kp : KeyPress) :
    ∃ r, dispatch noFail st kp = .ok r := by
  unfold dispatch
  cases keyAction st.event_descriptions.length kp with
  | none => exact ⟨_, rfl⟩
  | quit => exact ⟨_, rfl⟩
  | toggleHelp => exact ⟨_, rfl⟩
  | toggle i =>
    simp only [applyAction]
    by_cases hcont : containsSlot st.active_instances i = true
    · rw [if_pos hcont]
      cases hlk : lookupSlot st.active_instances i with
      | none => exact ⟨_, stop_event_none _ _ _ hlk⟩
      | some inst => exact ⟨_, stop_event_noFail_some _ _ _ hlk⟩
    · rw [if_neg hcont]
      exact play_event_noFail_ok st i
  | stopAll => exact ⟨_, stop_all_events_noFail st⟩
  | move dx dy dz => exact ⟨_, move_source_eq noFail st dx dy dz⟩
  | resetPos =>
    exact ⟨_, move_source_eq noFail { st with source_pos := ⟨0, 0, -5⟩ }
      0 0 0⟩
  | adjParam delta => exact ⟨_, adjust_parameter_eq noFail st delta⟩

theorem runLoop_noFail_ok :
    ∀ (keys : List KeyPress) (st : HarnessState),
      ∃ r, runLoop noFail keys st = .ok r := by
  intro keys
  induction keys with
  | nil => intro st; exact ⟨_, rfl⟩
  | cons kp rest ih =>
    intro st
    simp only [runLoop, noFail_eq, Bool.false_eq_true, if_false]
    by_cases hq : keyAction st.event_descriptions.length kp = HAction.quit
    · rw [if_pos hq]
      exact ⟨_, rfl⟩
    · rw [if_neg hq]
      obtain ⟨r1, hd⟩ := dispatch_noFail_ok st kp
      obtain ⟨st1, cs1⟩ := r1
      obtain ⟨r2, hrl⟩ := ih st1
      rw [hd]
      dsimp only
      rw [hrl]
      exact ⟨_, rfl⟩

theorem cleanup_noFail_eq (st : HarnessState) :
    cleanup noFail st =
      .ok ({ st with active_instances := [] },
        st.active_instances.flatMap (fun p =>
            [ECall.stopAllowFadeout p.2, ECall.release p.2])
          ++ st.banks.map ECall.unloadBank ++ [ECall.studioRelease]) := by
  simp [cleanup, stop_all_events_noFail, unloadAllBanks_noFail]

/-- The teardown calls appended by `main`'s cleanup block for loop-final
state `st1`. -/
def cleanupCalls (st1 : HarnessState) : List ECall :=
  st1.active_instances.flatMap (fun p =>
      [ECall.stopAllowFadeout p.2, ECall.release p.2])
    ++ st1.banks.map ECall.unloadBank ++ [ECall.studioRelease]

/-- Master description of a success-path run: the loop reaches some state
`st1` holding the run invariant over `initCalls ++ cs1`, the event list
and bank list are those of the fresh state, and the full run is the loop
trace followed by the literal cleanup. -/
theorem harness_run_spec (found : String → Bool) (keys : List KeyPress) :
    ∃ st1 cs1,
      runLoop noFail keys (initStateF found) = .ok (st1, cs1) ∧
      RunInv st1 (initCalls ++ cs1) ∧
      st1.event_descriptions = eventPaths.filter found ∧
      st1.banks = bankFiles ∧
      runState found keys = st1 ∧
      runH found keys =
        ({ st1 with active_instances := [] },
         initCalls ++ cs1 ++ cleanupCalls st1) := by
  obtain ⟨r1, hrl⟩ := runLoop_noFail_ok keys (initStateF found)
  obtain ⟨st1, cs1⟩ := r1
  obtain ⟨hInv1, hed1, hbk1⟩ := runLoop_preserve keys (initStateF found)
    initCalls (st1, cs1) (RunInv_init found) hrl
  refine ⟨st1, cs1, hrl, hInv1, ?_, ?_, ?_, ?_⟩
  · exact hed1
  · exact hbk1
  · unfold runState
    rw [initHarness_noFail]
    dsimp only [Except.toOption, Option.getD]
    rw [hrl]
  · unfold runH harness_main
    rw [initHarness_noFail]
    dsimp only
    rw [hrl]
    dsimp only
    rw [cleanup_noFail_eq]
    dsimp only
    unfold cleanupCalls
    rw [hbk1]

/-- Success test for `Except`. -/
def exceptOk {ε α : Type} : Except ε α → Bool
  | .ok _ => true
  | .error _ => false

/-- Oracle failing exactly the `set_parameter_by_name` calls whose
parameter name is `"RPM"`, and no other engine call. -/
def failRPM : ECall → Bool
  | ECall.setParamByName _ "RPM" _ => true
  | _ => false

/-- C7: `get_fmod_sdk_dir` returns an error exactly when the
`FMOD_SDK_DIR` environment variable is absent, with the documented
message; when present it returns the value, and `get_example_banks_dir`
appends `/api/studio/examples/media` to it. -/
theorem c7_sdk_dir_env (env : String → Option String) :
    (env "FMOD_SDK_DIR" = none →
      get_fmod_sdk_dir env = .error
        "FMOD_SDK_DIR environment variable not set. Please set it to your FMOD SDK path.") ∧
    (∀ v, env "FMOD_SDK_DIR" = some v →
      get_fmod_sdk_dir env = .ok v ∧
      get_example_banks_dir env = .ok (v ++ "/api/studio/examples/media")) := by
  constructor
  · intro h
    simp [get_fmod_sdk_dir, h]
  · intro v h
    constructor
    · simp [get_fmod_sdk_dir, h]
    · simp [get_example_banks_dir, get_fmod_sdk_dir, h]

theorem c7_sdk_dir_env_witness :
    get_fmod_sdk_dir (fun _ => none) = .error
      "FMOD_SDK_DIR environment variable not set. Please set it to your FMOD SDK path." ∧
    get_fmod_sdk_dir
        (fun n => if n = "FMOD_SDK_DIR" then some "/opt/fmod" else none)
      = .ok "/opt/fmod" ∧
    get_example_banks_dir
        (fun n => if n = "FMOD_SDK_DIR" then some "/opt/fmod" else none)
      = .ok "/opt/fmod/api/studio/examples/media" :=
  ⟨(c7_sdk_dir_env (fun _ => none)).1 rfl,
   ((c7_sdk_dir_env _).2 "/opt/fmod" (by simp)).1,
   ((c7_sdk_dir_env _).2 "/opt/fmod" (by simp)).2⟩

/-- C8: the harness demo binary selects `"all"` when no positional
argument is supplied (argument vectors of length at most one) and uses
the first positional argument verbatim otherwise. -/
theorem c8_demo_name_default :
    demoName [] = "all" ∧
    (∀ prog : String, demoName [prog] = "all") ∧
    (∀ (prog arg : String) (rest : List String),
      demoName (prog :: arg :: rest) = arg) := by
  refine ⟨rfl, fun prog => rfl, fun prog arg rest => ?_⟩
  simp [demoName]

/-- C6: pressing `r` or `R`, with or without SHIFT, sets the 3D source
position to the literal default vector `(0, 0, -5)`, which is also the
vector a fresh harness state starts with. -/
theorem c6_reset_restores_default :
    (∀ (st : HarnessState) (sh : Bool) (r : HarnessState × List ECall),
      dispatch noFail st ⟨KeyCode.char 'r', sh⟩ = .ok r →
        r.1.source_pos = ⟨0, 0, -5⟩) ∧
    (∀ (st : HarnessState) (sh : Bool) (r : HarnessState × List ECall),
      dispatch noFail st ⟨KeyCode.char 'R', sh⟩ = .ok r →
        r.1.source_pos = ⟨0, 0, -5⟩) ∧
    (∀ found : String → Bool, (initStateF found).source_pos = ⟨0, 0, -5⟩) := by
  refine ⟨?_, ?_, fun found => rfl⟩
  · intro st sh r h
    rw [show dispatch noFail st ⟨KeyCode.char 'r', sh⟩ =
      move_source noFail { st with source_pos := ⟨0, 0, -5⟩ } 0 0 0
      from rfl, move_source_eq] at h
    injection h with h
    subst h
    show (⟨0 + 0, 0 + 0, -5 + 0⟩ : Vec3) = ⟨0, 0, -5⟩
    norm_num
  · intro st sh r h
    rw [show dispatch noFail st ⟨KeyCode.char 'R', sh⟩ =
      move_source noFail { st with source_pos := ⟨0, 0, -5⟩ } 0 0 0
      from rfl, move_source_eq] at h
    injection h with h
    subst h
    show (⟨0 + 0, 0 + 0, -5 + 0⟩ : Vec3) = ⟨0, 0, -5⟩
    norm_num

theorem c6_reset_restores_default_witness :
    dispatch noFail (initStateF (fun _ => true)) ⟨KeyCode.char 'r', false⟩
      = .ok ({ initStateF (fun _ => true) with
          source_pos := ⟨0 + 0, 0 + 0, -5 + 0⟩ }, []) ∧
    ({ initStateF (fun _ => true) with
        source_pos := (⟨0 + 0, 0 + 0, -5 + 0⟩ : Vec3) }, ([] : List ECall)).1.source_pos
      = ⟨0, 0, -5⟩ :=
  ⟨rfl, c6_reset_restores_default.1 (initStateF (fun _ => true)) false _ rfl⟩

/-- C10: the slot operations are total: `play_event` with an index at or
beyond the number of discovered events returns `Ok(())` with no engine
call and no state change, and `stop_event` on a slot absent from the
active-instance map likewise. -/
theorem c10_slot_ops_total :
    (∀ (fail : ECall → Bool) (st : HarnessState) (i : Nat),
      st.event_descriptions.length ≤ i →
      play_event fail st i = .ok (st, [])) ∧
    (∀ (fail : ECall → Bool) (st : HarnessState) (i : Nat),
      containsSlot st.active_instances i = false →
      stop_event fail st i = .ok (st, [])) :=
  ⟨play_event_noFail_oob, fun fail st i h =>
    stop_event_none fail st i (containsSlot_false_lookup _ _ h)⟩

theorem c10_slot_ops_total_witness :
    ((initStateF (fun _ => true)).event_descriptions.length ≤ 6 ∧
      play_event failRPM (initStateF (fun _ => true)) 6
        = .ok (initStateF (fun _ => true), [])) ∧
    (containsSlot (initStateF (fun _ => true)).active_instances 0 = false ∧
      stop_event failRPM (initStateF (fun _ => true)) 0
        = .ok (initStateF (fun _ => true), [])) :=
  ⟨⟨by decide, c10_slot_ops_total.1 failRPM _ 6 (by decide)⟩,
   ⟨by decide, c10_slot_ops_total.2 failRPM _ 0 (by decide)⟩⟩

/-- C1 counterexample: with an oracle failing exactly the
`set_parameter_by_name("RPM", ..)` engine calls, `play_event` on the
vehicle event (slot 4, `event:/Vehicles/Ride-on Mower`) returns an
error: the `?` on line 127 propagates this parameter failure, so it is
not true that no `set_parameter_by_name` failure makes `play_event`
fail. -/
theorem c1_rpm_failure_propagates :
    play_event failRPM (initStateF (fun _ => true)) 4 = .error () := rfl

/-- C1 (amended): engine-call failures on secondary actions
(3D-attribute pushes, parameter adjustments on active instances, and
`set_parameter_by_name` inside `play_event` for non-vehicle events) are
swallowed, while failures on primary actions (instance creation, start,
bank loading — and the RPM parameter set on vehicle events, which
`play_event` treats as primary) propagate as errors. -/
theorem c1_failure_tiers :
    (∀ (fail : ECall → Bool) (st : HarnessState) (delta : ℚ),
      exceptOk (adjust_parameter fail st delta) = true) ∧
    (∀ (fail : ECall → Bool) (st : HarnessState) (dx dy dz : ℚ),
      exceptOk (move_source fail st dx dy dz) = true) ∧
    (∀ (fail : ECall → Bool) (st : HarnessState) (i : Nat),
      (∀ slot inst, fail (ECall.createInstance slot inst) = false) →
      (∀ inst, fail (ECall.start inst) = false) →
      (∀ inst, fail (ECall.release inst) = false) →
      isVehiclePath (st.event_descriptions.getD i "") = false →
      exceptOk (play_event fail st i) = true) ∧
    (∀ (st : HarnessState) (i : Nat),
      i < st.event_descriptions.length →
      isVehiclePath (st.event_descriptions.getD i "") = true →
      play_event failRPM st i = .error ()) ∧
    (∀ (fail : ECall → Bool) (st : HarnessState) (i : Nat),
      i < st.event_descriptions.length →
      fail (ECall.createInstance i st.next_id) = true →
      play_event fail st i = .error ()) ∧
    (∀ (fail : ECall → Bool) (found : String → Bool),
      fail ECall.studioCreate = false → fail ECall.studioInit = false →
      fail (ECall.loadBankFile "Master.bank") = true →
      initHarness fail found = .error ()) := by
  refine ⟨fun _ _ _ => rfl, fun _ _ _ _ _ => rfl, ?_, ?_, ?_, ?_⟩
  · intro fail st i h1 h2 h3 hveh
    by_cases hlen : st.event_descriptions.length ≤ i
    · rw [play_event_noFail_oob _ _ _ hlen]; rfl
    · unfold play_event
      rw [if_neg hlen]
      dsimp only
      rw [h1 i st.next_id, if_neg Bool.false_ne_true,
        if_neg (by rw [hveh]; exact Bool.false_ne_true)]
      split
      all_goals
        unfold playFinish
        rw [h2 st.next_id, if_neg Bool.false_ne_true]
        split
        · rw [h3 st.next_id, if_neg Bool.false_ne_true]; rfl
        · rfl
  · intro st i hlen hveh
    have hlen' : ¬ st.event_descriptions.length ≤ i := Nat.not_le.mpr hlen
    unfold play_event
    rw [if_neg hlen']
    dsimp only
    rw [show failRPM (ECall.createInstance i st.next_id) = false from rfl,
      if_neg Bool.false_ne_true, if_pos hveh,
      show failRPM (ECall.setParamByName st.next_id "RPM" 1500) = true
        from rfl, if_pos rfl]
  · intro fail st i hlen hcr
    have hlen' : ¬ st.event_descriptions.length ≤ i := Nat.not_le.mpr hlen
    unfold play_event
    rw [if_neg hlen']
    dsimp only
    rw [hcr, if_pos rfl]
  · intro fail found hc hi hm
    simp [initHarness, loadAllBanks, bankFiles, hc, hi, hm]

theorem c1_failure_tiers_witness :
    exceptOk (adjust_parameter failRPM (initStateF (fun _ => true)) (1/10))
      = true ∧
    exceptOk (play_event failRPM (initStateF (fun _ => true)) 0) = true ∧
    ((initStateF (fun _ => true)).event_descriptions.length > 4 ∧
      isVehiclePath
        ((initStateF (fun _ => true)).event_descriptions.getD 4 "") = true ∧
      play_event failRPM (initStateF (fun _ => true)) 4 = .error ()) :=
  ⟨c1_failure_tiers.1 failRPM _ _,
   c1_failure_tiers.2.2.1 failRPM _ 0 (fun _ _ => rfl) (fun _ => rfl)
     (fun _ => rfl) (by decide),
   ⟨by decide, by decide,
    c1_failure_tiers.2.2.2.1 _ 4 (by decide) (by decide)⟩⟩

theorem lifeTrace_map_unload (l : List String) (id : Nat) :
    lifeTrace (l.map ECall.unloadBank) id = [] := by
  induction l with
  | nil => rfl
  | cons p rest ih => simp [lifeTrace, lifeTag, ih]

/-- After a complete success-path run, every allocated instance id has a
full lifecycle (with or without an explicit stop), and ids never
allocated have an empty one. -/
theorem run_final_lifecycle (found : String → Bool) (keys : List KeyPress)
    (id : Nat) :
    (id < (runState found keys).next_id →
      lifeTrace (runH found keys).2 id
          = [LTag.created, LTag.started, LTag.stopped, LTag.released]
        ∨ lifeTrace (runH found keys).2 id
          = [LTag.created, LTag.started, LTag.released]) ∧
    ((runState found keys).next_id ≤ id →
      lifeTrace (runH found keys).2 id = []) := by
  obtain ⟨st1, cs1, hrl, hInv, hed, hbk, hrs, hrh⟩ :=
    harness_run_spec found keys
  have hInv2 := stopAll_preserve st1 (initCalls ++ cs1) hInv
  rw [hrh, hrs]
  have hsplit : initCalls ++ cs1 ++ cleanupCalls st1
      = (((initCalls ++ cs1) ++ st1.active_instances.flatMap (fun p =>
          [ECall.stopAllowFadeout p.2, ECall.release p.2]))
        ++ (st1.banks.map ECall.unloadBank ++ [ECall.studioRelease])) := by
    simp [cleanupCalls, List.append_assoc]
  have htail : ∀ j, lifeTrace
      (st1.banks.map ECall.unloadBank ++ [ECall.studioRelease]) j = [] := by
    intro j
    rw [lifeTrace_append, lifeTrace_map_unload]
    rfl
  constructor
  · intro hid
    have hdisj := hInv2.lifeDone id hid (by
      show id ∉ activeVals { st1 with active_instances := [] }
      intro hm
      cases hm)
    dsimp only
    rw [hsplit, lifeTrace_append, htail, List.append_nil]
    exact hdisj
  · intro hid
    dsimp only
    rw [hsplit, lifeTrace_append, htail, List.append_nil]
    exact hInv2.lifeFresh id hid

/-- C2 counterexample: in the run that presses key `2` (the one-shot
Footsteps event) and exits, instance 0 is created, started and released
with no stop in between — so release does not always follow a stop. -/
theorem c2_release_without_stop :
    lifeTrace (runH (fun _ => true) [numKey 1, ⟨KeyCode.esc, false⟩]).2 0
      = [LTag.created, LTag.started, LTag.released] ∧
    0 < (runState (fun _ => true) [numKey 1, ⟨KeyCode.esc, false⟩]).next_id
      := by
  constructor <;> decide

/-- C2 (amended): every instance created by the harness is created, then
started, then released exactly once; tracked (non-one-shot) instances are
stopped between start and release, while one-shot instances are released
directly after start with no stop. -/
theorem c2_instance_lifecycle (found : String → Bool)
    (keys : List KeyPress) (id : Nat)
    (hid : id < (runState found keys).next_id) :
    lifeTrace (runH found keys).2 id
        = [LTag.created, LTag.started, LTag.stopped, LTag.released]
      ∨ lifeTrace (runH found keys).2 id
        = [LTag.created, LTag.started, LTag.released] :=
  (run_final_lifecycle found keys id).1 hid

theorem c2_instance_lifecycle_witness :
    0 < (runState (fun _ => true) [numKey 0, ⟨KeyCode.esc, false⟩]).next_id
      ∧ (lifeTrace
          (runH (fun _ => true) [numKey 0, ⟨KeyCode.esc, false⟩]).2 0
            = [LTag.created, LTag.started, LTag.stopped, LTag.released]
        ∨ lifeTrace
            (runH (fun _ => true) [numKey 0, ⟨KeyCode.esc, false⟩]).2 0
            = [LTag.created, LTag.started, LTag.released]) :=
  ⟨by decide, c2_instance_lifecycle (fun _ => true)
    [numKey 0, ⟨KeyCode.esc, false⟩] 0 (by decide)⟩

theorem countP_unload_zero (l : List ECall) (h : ∀ c ∈ l, notTear c)
    (b : String) :
    l.countP (fun c => decide (c = ECall.unloadBank b)) = 0 := by
  rw [List.countP_eq_zero]
  intro a ha
  simp only [decide_eq_true_eq]
  exact (h a ha).1 b

theorem countP_rel_zero (l : List ECall) (h : ∀ c ∈ l, notTear c) :
    l.countP (fun c => decide (c = ECall.studioRelease)) = 0 := by
  rw [List.countP_eq_zero]
  intro a ha
  simp only [decide_eq_true_eq]
  exact (h a ha).2

theorem countP_unload_map (b : String) (hb : b ∈ bankFiles) :
    (bankFiles.map ECall.unloadBank).countP
      (fun c => decide (c = ECall.unloadBank b)) = 1 := by
  fin_cases hb <;> decide

theorem countP_rel_map_unload (l : List String) :
    (l.map ECall.unloadBank).countP
      (fun c => decide (c = ECall.studioRelease)) = 0 := by
  rw [List.countP_eq_zero]
  intro a ha
  rcases List.mem_map.mp ha with ⟨x, _, rfl⟩
  simp

/-- C4: on the success path of a run, every instance id allocated is
created exactly once and released exactly once (never-allocated ids are
not touched), each of the five loaded banks is unloaded exactly once, and
the studio session is released exactly once, as the very last engine
call. -/
theorem c4_handles_released_once (found : String → Bool)
    (keys : List KeyPress) (id : Nat) (b : String) :
    ((lifeTrace (runH found keys).2 id).count LTag.created
        = if id < (runState found keys).next_id then 1 else 0) ∧
    ((lifeTrace (runH found keys).2 id).count LTag.released
        = if id < (runState found keys).next_id then 1 else 0) ∧
    (b ∈ bankFiles →
      (runH found keys).2.countP
        (fun c => decide (c = ECall.unloadBank b)) = 1) ∧
    (runH found keys).2.countP
        (fun c => decide (c = ECall.studioRelease)) = 1 ∧
    (runH found keys).2.getLast? = some ECall.studioRelease := by
  obtain ⟨st1, cs1, hrl, hInv, hed, hbk, hrs, hrh⟩ :=
    harness_run_spec found keys
  refine ⟨?_, ?_, ?_, ?_, ?_⟩
  · by_cases hid : id < (runState found keys).next_id
    · rw [if_pos hid]
      rcases (run_final_lifecycle found keys id).1 hid with h | h <;>
        rw [h] <;> rfl
    · rw [if_neg hid,
        (run_final_lifecycle found keys id).2 (Nat.le_of_not_lt hid)]
      rfl
  · by_cases hid : id < (runState found keys).next_id
    · rw [if_pos hid]
      rcases (run_final_lifecycle found keys id).1 hid with h | h <;>
        rw [h] <;> rfl
    · rw [if_neg hid,
        (run_final_lifecycle found keys id).2 (Nat.le_of_not_lt hid)]
      rfl
  · intro hb
    rw [hrh]
    dsimp only
    rw [List.countP_append, List.countP_append,
      countP_unload_zero initCalls
        (fun c hc => hInv.noTear c (List.mem_append_left _ hc)) b,
      countP_unload_zero cs1
        (fun c hc => hInv.noTear c (List.mem_append_right _ hc)) b]
    unfold cleanupCalls
    rw [List.countP_append, List.countP_append,
      countP_unload_zero _ (noTear_drainCalls _) b, hbk,
      countP_unload_map b hb]
    rfl
  · rw [hrh]
    dsimp only
    rw [List.countP_append, List.countP_append,
      countP_rel_zero initCalls
        (fun c hc => hInv.noTear c (List.mem_append_left _ hc)),
      countP_rel_zero cs1
        (fun c hc => hInv.noTear c (List.mem_append_right _ hc))]
    unfold cleanupCalls
    rw [List.countP_append, List.countP_append,
      countP_rel_zero _ (noTear_drainCalls _), countP_rel_map_unload]
    rfl
  · rw [hrh]
    dsimp only
    have hsplit : initCalls ++ cs1 ++ cleanupCalls st1
        = (initCalls ++ cs1
            ++ (st1.active_instances.flatMap (fun p =>
              [ECall.stopAllowFadeout p.2, ECall.release p.2])
            ++ st1.banks.map ECall.unloadBank))
          ++ [ECall.studioRelease] := by
      simp [cleanupCalls, List.append_assoc]
    rw [hsplit, List.getLast?_concat]

theorem c4_handles_released_once_witness :
    (0 < (runState (fun _ => true) [numKey 0, ⟨KeyCode.esc, false⟩]).next_id)
      ∧ ("Master.bank" ∈ bankFiles) ∧
    ((lifeTrace (runH (fun _ => true)
        [numKey 0, ⟨KeyCode.esc, false⟩]).2 0).count LTag.released
      = if 0 < (runState (fun _ => true)
          [numKey 0, ⟨KeyCode.esc, false⟩]).next_id then 1 else 0) ∧
    (runH (fun _ => true) [numKey 0, ⟨KeyCode.esc, false⟩]).2.countP
        (fun c => decide (c = ECall.unloadBank "Master.bank")) = 1 :=
  ⟨by decide, by decide,
   (c4_handles_released_once (fun _ => true)
     [numKey 0, ⟨KeyCode.esc, false⟩] 0 "Master.bank").2.1,
   (c4_handles_released_once (fun _ => true)
     [numKey 0, ⟨KeyCode.esc, false⟩] 0 "Master.bank").2.2.1 (by decide)⟩

theorem containsSlot_true_lookup (m : List (Nat × Nat)) (i : Nat)
    (h : containsSlot m i = true) : ∃ v, lookupSlot m i = some v := by
  unfold lookupSlot
  cases hf : m.find? (fun p => p.1 = i) with
  | some p => exact ⟨p.2, rfl⟩
  | none =>
    exfalso
    rw [List.find?_eq_none] at hf
    simp only [containsSlot, List.any_eq_true, decide_eq_true_eq] at h
    rcases h with ⟨p, hp, hpf⟩
    exact absurd (by simpa using hpf) (hf p hp)

theorem containsSlot_removeSlot_self (m : List (Nat × Nat)) (i : Nat) :
    containsSlot (removeSlot m i) i = false := by
  simp only [containsSlot, List.any_eq_false, decide_eq_true_eq]
  intro p hp
  exact ((mem_removeSlot m i p).mp hp).2

theorem containsSlot_insertSlot_self (m : List (Nat × Nat)) (i v : Nat) :
    containsSlot (insertSlot m i v) i = true := by
  simp [containsSlot, insertSlot]

theorem keyAction_numKey (n i : Nat) (hi : i ≤ 5) (hlen : i < n) :
    keyAction n (numKey i) = HAction.toggle i := by
  interval_cases i
  · rfl
  · rw [show keyAction n (numKey 1)
      = if 1 < n then HAction.toggle 1 else HAction.none from rfl,
      if_pos hlen]
  · rw [show keyAction n (numKey 2)
      = if 2 < n then HAction.toggle 2 else HAction.none from rfl,
      if_pos hlen]
  · rw [show keyAction n (numKey 3)
      = if 3 < n then HAction.toggle 3 else HAction.none from rfl,
      if_pos hlen]
  · rw [show keyAction n (numKey 4)
      = if 4 < n then HAction.toggle 4 else HAction.none from rfl,
      if_pos hlen]
  · rw [show keyAction n (numKey 5)
      = if 5 < n then HAction.toggle 5 else HAction.none from rfl,
      if_pos hlen]

theorem mem_playCallsPre (st : HarnessState) (i : Nat) (c : ECall)
    (h : c ∈ playCallsPre st i) :
    c = ECall.createInstance i st.next_id ∨
    c = attrCall st.next_id st.source_pos ∨
    ∃ pname v, c = ECall.setParamByName st.next_id pname v := by
  simp only [playCallsPre, List.mem_append, List.mem_cons,
    List.not_mem_nil, or_false] at h
  rcases h with (h | h) | h
  · exact Or.inl h
  · exact Or.inr (Or.inl h)
  · right; right
    revert h
    unfold playParamCalls
    split
    · intro h
      simp only [List.mem_cons, List.not_mem_nil, or_false] at h
      exact ⟨"RPM", 1500, h⟩
    · split
      · intro h
        simp only [List.mem_cons, List.not_mem_nil, or_false] at h
        exact ⟨"Surface", 1, h⟩
      · intro h
        cases h

theorem stop_not_mem_playCallsPre (st : HarnessState) (i inst : Nat) :
    ECall.stopAllowFadeout inst ∉ playCallsPre st i := by
  intro h
  rcases mem_playCallsPre st i _ h with h1 | h1 | ⟨pname, v, h1⟩ <;>
    simp [attrCall] at h1

/-- C9: one-shot events (paths containing `Footstep` or `Explosion`) are
never tracked: `play_event` leaves the active map unchanged for them
(starting and immediately releasing a fresh instance, with no stop), in
every reachable state their slot is absent from the active map, the
number key of a slot is a pure toggle (stop if tracked, play if not), and
for non-one-shot slots pressing the key flips the slot's tracked state,
so consecutive presses alternate between start and stop. -/
theorem c9_one_shot_never_tracked (found : String → Bool)
    (keys : List KeyPress) (i : Nat) :
    (i < (runState found keys).event_descriptions.length →
      isOneShotPath
        ((runState found keys).event_descriptions.getD i "") = true →
      containsSlot (runState found keys).active_instances i = false) ∧
    (∀ (st : HarnessState) (r : HarnessState × List ECall),
      i < st.event_descriptions.length →
      isOneShotPath (st.event_descriptions.getD i "") = true →
      play_event noFail st i = .ok r →
      r.1.active_instances = st.active_instances ∧
      ECall.start st.next_id ∈ r.2 ∧
      ECall.release st.next_id ∈ r.2 ∧
      (∀ inst, ECall.stopAllowFadeout inst ∉ r.2)) ∧
    (i ≤ 5 → i < (runState found keys).event_descriptions.length →
      dispatch noFail (runState found keys) (numKey i)
        = (if containsSlot (runState found keys).active_instances i
            then stop_event noFail (runState found keys) i
            else play_event noFail (runState found keys) i)) ∧
    (∀ r : HarnessState × List ECall, i ≤ 5 →
      i < (runState found keys).event_descriptions.length →
      isOneShotPath
        ((runState found keys).event_descriptions.getD i "") = false →
      dispatch noFail (runState found keys) (numKey i) = .ok r →
      containsSlot r.1.active_instances i
        = !containsSlot (runState found keys).active_instances i) := by
  obtain ⟨st1, cs1, hrl, hInv, hed, hbk, hrs, hrh⟩ :=
    harness_run_spec found keys
  rw [hrs]
  refine ⟨?_, ?_, ?_, ?_⟩
  · intro hlen hos
    cases hcs : containsSlot st1.active_instances i with
    | false => rfl
    | true =>
      exfalso
      simp only [containsSlot, List.any_eq_true, decide_eq_true_eq] at hcs
      rcases hcs with ⟨p, hp, hpf⟩
      have h2 := (hInv.slotsOk p hp).2
      rw [hpf] at h2
      rw [h2] at hos
      cases hos
  · intro st r hlen hos h
    rw [play_event_noFail_oneShot st i hlen hos] at h
    injection h with h
    subst h
    refine ⟨rfl, ?_, ?_, ?_⟩
    · simp
    · simp
    · intro inst hmem
      rcases List.mem_append.mp hmem with hmem | hmem
      · exact stop_not_mem_playCallsPre st i inst hmem
      · simp at hmem
  · intro hi hlen
    unfold dispatch
    rw [keyAction_numKey _ i hi hlen]
    rfl
  · intro r hi hlen hos h
    unfold dispatch at h
    rw [keyAction_numKey _ i hi hlen] at h
    simp only [applyAction] at h
    by_cases hc : containsSlot st1.active_instances i = true
    · rw [if_pos hc] at h
      obtain ⟨v, hlk⟩ := containsSlot_true_lookup _ _ hc
      rw [stop_event_noFail_some _ _ _ hlk] at h
      injection h with h
      subst h
      rw [hc]
      exact containsSlot_removeSlot_self _ _
    · rw [if_neg hc] at h
      have hc2 : containsSlot st1.active_instances i = false :=
        Bool.not_eq_true _ ▸ Bool.eq_false_iff.mpr hc
      rw [play_event_noFail_tracked st1 i hlen hos] at h
      injection h with h
      subst h
      rw [hc2]
      exact containsSlot_insertSlot_self _ _ _

/-- Concrete dispatch result used to witness the toggle part of C9. -/
def c9Res : HarnessState × List ECall :=
  (dispatch noFail (runState (fun _ => true) []) (numKey 0)).toOption.getD
    (initStateF (fun _ => true), [])

theorem c9_one_shot_never_tracked_witness :
    containsSlot (runState (fun _ => true) []).active_instances 1 = false ∧
    (dispatch noFail (runState (fun _ => true) []) (numKey 1)
      = (if containsSlot (runState (fun _ => true) []).active_instances 1
          then stop_event noFail (runState (fun _ => true) []) 1
          else play_event noFail (runState (fun _ => true) []) 1)) ∧
    containsSlot c9Res.1.active_instances 0
      = !containsSlot (runState (fun _ => true) []).active_instances 0 :=
  ⟨(c9_one_shot_never_tracked (fun _ => true) [] 1).1 (by decide)
      (by decide),
   (c9_one_shot_never_tracked (fun _ => true) [] 1).2.2.1 (by decide)
      (by decide),
   (c9_one_shot_never_tracked (fun _ => true) [] 0).2.2.2 c9Res
      (by decide) (by decide) (by decide) rfl⟩

/-- The movement step: `1.0` normally, `0.1` with SHIFT (lines 382 &c). -/
def stepOf (sh : Bool) : ℚ := if sh then 1/10 else 1

/-- The twelve movement keys (lines 381–404). -/
def moveKeyChars : List Char :=
  ['w', 'W', 's', 'S', 'a', 'A', 'd', 'D', 'q', 'Q', 'e', 'E']

/-- The translation each movement key applies to the source position. -/
def moveDelta (c : Char) (step : ℚ) : Vec3 :=
  match c with
  | 'w' | 'W' => ⟨0, 0, -step⟩
  | 's' | 'S' => ⟨0, 0, step⟩
  | 'a' | 'A' => ⟨-step, 0, 0⟩
  | 'd' | 'D' => ⟨step, 0, 0⟩
  | 'q' | 'Q' => ⟨0, step, 0⟩
  | 'e' | 'E' => ⟨0, -step, 0⟩
  | _ => ⟨0, 0, 0⟩

/-- Vector `d` translates along exactly one axis, by `step` or `-step`, leaving
the other two coordinates untouched. -/
def movesOneAxisBy (d : Vec3) (step : ℚ) : Prop :=
  (d.x = 0 ∧ d.y = 0 ∧ (d.z = step ∨ d.z = -step)) ∨
  (d.y = 0 ∧ d.z = 0 ∧ (d.x = step ∨ d.x = -step)) ∨
  (d.x = 0 ∧ d.z = 0 ∧ (d.y = step ∨ d.y = -step))

/-- C5: each movement key translates the source position by exactly one
nonzero step (`1` normally, `1/10` with SHIFT) along exactly one axis and
leaves the listener position, the selected-event cursor and the
active-instance map unchanged. -/
theorem c5_movement_keys (st : HarnessState) (c : Char) (sh : Bool)
    (r : HarnessState × List ECall) (hc : c ∈ moveKeyChars)
    (h : dispatch noFail st ⟨KeyCode.char c, sh⟩ = .ok r) :
    r.1.source_pos = st.source_pos.add (moveDelta c (stepOf sh)) ∧
    movesOneAxisBy (moveDelta c (stepOf sh)) (stepOf sh) ∧
    stepOf sh ≠ 0 ∧
    r.1.listener_pos = st.listener_pos ∧
    r.1.selected_event = st.selected_event ∧
    r.1.active_instances = st.active_instances := by
  have hstep : stepOf sh ≠ 0 := by cases sh <;> norm_num [stepOf]
  simp only [moveKeyChars, List.mem_cons, List.not_mem_nil, or_false]
    at hc
  rcases hc with rfl | rfl | rfl | rfl | rfl | rfl | rfl | rfl | rfl
    | rfl | rfl | rfl
  · rw [show dispatch noFail st ⟨KeyCode.char 'w', sh⟩
        = move_source noFail st 0 0 (-(stepOf sh)) from rfl,
      move_source_eq] at h
    injection h with h
    subst h
    exact ⟨rfl, Or.inl ⟨rfl, rfl, Or.inr rfl⟩, hstep, rfl, rfl, rfl⟩
  · rw [show dispatch noFail st ⟨KeyCode.char 'W', sh⟩
        = move_source noFail st 0 0 (-(stepOf sh)) from rfl,
      move_source_eq] at h
    injection h with h
    subst h
    exact ⟨rfl, Or.inl ⟨rfl, rfl, Or.inr rfl⟩, hstep, rfl, rfl, rfl⟩
  · rw [show dispatch noFail st ⟨KeyCode.char 's', sh⟩
        = move_source noFail st 0 0 (stepOf sh) from rfl,
      move_source_eq] at h
    injection h with h
    subst h
    exact ⟨rfl, Or.inl ⟨rfl, rfl, Or.inl rfl⟩, hstep, rfl, rfl, rfl⟩
  · rw [show dispatch noFail st ⟨KeyCode.char 'S', sh⟩
        = move_source noFail st 0 0 (stepOf sh) from rfl,
      move_source_eq] at h
    injection h with h
    subst h
    exact ⟨rfl, Or.inl ⟨rfl, rfl, Or.inl rfl⟩, hstep, rfl, rfl, rfl⟩
  · rw [show dispatch noFail st ⟨KeyCode.char 'a', sh⟩
        = move_source noFail st (-(stepOf sh)) 0 0 from rfl,
      move_source_eq] at h
    injection h with h
    subst h
    exact ⟨rfl, Or.inr (Or.inl ⟨rfl, rfl, Or.inr rfl⟩), hstep,
      rfl, rfl, rfl⟩
  · rw [show dispatch noFail st ⟨KeyCode.char 'A', sh⟩
        = move_source noFail st (-(stepOf sh)) 0 0 from rfl,
      move_source_eq] at h
    injection h with h
    subst h
    exact ⟨rfl, Or.inr (Or.inl ⟨rfl, rfl, Or.inr rfl⟩), hstep,
      rfl, rfl, rfl⟩
  · rw [show dispatch noFail st ⟨KeyCode.char 'd', sh⟩
        = move_source noFail st (stepOf sh) 0 0 from rfl,
      move_source_eq] at h
    injection h with h
    subst h
    exact ⟨rfl, Or.inr (Or.inl ⟨rfl, rfl, Or.inl rfl⟩), hstep,
      rfl, rfl, rfl⟩
  · rw [show dispatch noFail st ⟨KeyCode.char 'D', sh⟩
        = move_source noFail st (stepOf sh) 0 0 from rfl,
      move_source_eq] at h
    injection h with h
    subst h
    exact ⟨rfl, Or.inr (Or.inl ⟨rfl, rfl, Or.inl rfl⟩), hstep,
      rfl, rfl, rfl⟩
  · rw [show dispatch noFail st ⟨KeyCode.char 'q', sh⟩
        = move_source noFail st 0 (stepOf sh) 0 from rfl,
      move_source_eq] at h
    injection h with h
    subst h
    exact ⟨rfl, Or.inr (Or.inr ⟨rfl, rfl, Or.inl rfl⟩), hstep,
      rfl, rfl, rfl⟩
  · rw [show dispatch noFail st ⟨KeyCode.char 'Q', sh⟩
        = move_source noFail st 0 (stepOf sh) 0 from rfl,
      move_source_eq] at h
    injection h with h
    subst h
    exact ⟨rfl, Or.inr (Or.inr ⟨rfl, rfl, Or.inl rfl⟩), hstep,
      rfl, rfl, rfl⟩
  · rw [show dispatch noFail st ⟨KeyCode.char 'e', sh⟩
        = move_source noFail st 0 (-(stepOf sh)) 0 from rfl,
      move_source_eq] at h
    injection h with h
    subst h
    exact ⟨rfl, Or.inr (Or.inr ⟨rfl, rfl, Or.inr rfl⟩), hstep,
      rfl, rfl, rfl⟩
  · rw [show dispatch noFail st ⟨KeyCode.char 'E', sh⟩
        = move_source noFail st 0 (-(stepOf sh)) 0 from rfl,
      move_source_eq] at h
    injection h with h
    subst h
    exact ⟨rfl, Or.inr (Or.inr ⟨rfl, rfl, Or.inr rfl⟩), hstep,
      rfl, rfl, rfl⟩

/-- Concrete dispatch result used to witness C5. -/
def c5Res : HarnessState × List ECall :=
  (dispatch noFail (initStateF (fun _ => true))
    ⟨KeyCode.char 'w', false⟩).toOption.getD
      (initStateF (fun _ => true), [])

theorem c5_movement_keys_witness :
    'w' ∈ moveKeyChars ∧
    c5Res.1.source_pos
      = (initStateF (fun _ => true)).source_pos.add
          (moveDelta 'w' (stepOf false)) ∧
    c5Res.1.active_instances
      = (initStateF (fun _ => true)).active_instances :=
  ⟨by decide,
   (c5_movement_keys (initStateF (fun _ => true)) 'w' false c5Res
     (by decide) rfl).1,
   (c5_movement_keys (initStateF (fun _ => true)) 'w' false c5Res
     (by decide) rfl).2.2.2.2.2⟩

/-- The key set documented by the claim: Esc, H, 1–6, Space, WASD, Q/E,
R, plus and minus (char keys, both letter cases). -/
def documentedChars : List Char :=
  ['h', 'H', '1', '2', '3', '4', '5', '6', ' ', 'w', 'W', 'a', 'A',
   's', 'S', 'd', 'D', 'q', 'Q', 'e', 'E', 'r', 'R', '+', '-']

/-- Every char key the dispatcher actually handles: the documented set
plus `=` (unshifted `+`) and `_` (shifted `-`). -/
def handledChars : List Char :=
  documentedChars ++ ['=', '_']

def isStartCall : ECall → Bool
  | ECall.start _ => true
  | _ => false

def isStopCall : ECall → Bool
  | ECall.stopAllowFadeout _ => true
  | _ => false

def isCreateCall : ECall → Bool
  | ECall.createInstance _ _ => true
  | _ => false

def stopId : ECall → Option Nat
  | ECall.stopAllowFadeout n => some n
  | _ => none

theorem ppc_start (p : String) (n : Nat) :
    (playParamCalls p n).countP isStartCall = 0 := by
  unfold playParamCalls
  split
  · rfl
  · split <;> rfl

theorem ppc_stop (p : String) (n : Nat) :
    (playParamCalls p n).countP isStopCall = 0 := by
  unfold playParamCalls
  split
  · rfl
  · split <;> rfl

theorem ppc_create (p : String) (n : Nat) :
    (playParamCalls p n).countP isCreateCall = 0 := by
  unfold playParamCalls
  split
  · rfl
  · split <;> rfl

theorem ppc_stopId (p : String) (n : Nat) :
    (playParamCalls p n).filterMap stopId = [] := by
  unfold playParamCalls
  split
  · rfl
  · split <;> rfl

theorem pcp_start (st : HarnessState) (i : Nat) :
    (playCallsPre st i).countP isStartCall = 0 := by
  unfold playCallsPre
  rw [List.countP_append, ppc_start]
  rfl

theorem pcp_stop (st : HarnessState) (i : Nat) :
    (playCallsPre st i).countP isStopCall = 0 := by
  unfold playCallsPre
  rw [List.countP_append, ppc_stop]
  rfl

theorem pcp_create (st : HarnessState) (i : Nat) :
    (playCallsPre st i).countP isCreateCall = 1 := by
  unfold playCallsPre
  rw [List.countP_append, ppc_create]
  rfl

theorem pcp_stopId (st : HarnessState) (i : Nat) :
    (playCallsPre st i).filterMap stopId = [] := by
  unfold playCallsPre
  rw [List.filterMap_append, ppc_stopId]
  rfl

theorem attrMap_counts (m : List (Nat × Nat)) (pos : Vec3) :
    (m.map (fun p => attrCall p.2 pos)).countP isStartCall = 0 ∧
    (m.map (fun p => attrCall p.2 pos)).countP isStopCall = 0 ∧
    (m.map (fun p => attrCall p.2 pos)).countP isCreateCall = 0 ∧
    (m.map (fun p => attrCall p.2 pos)).filterMap stopId = [] := by
  refine ⟨?_, ?_, ?_, ?_⟩
  · rw [List.countP_eq_zero]
    intro a ha
    rcases List.mem_map.mp ha with ⟨p, _, rfl⟩
    simp [attrCall, isStartCall]
  · rw [List.countP_eq_zero]
    intro a ha
    rcases List.mem_map.mp ha with ⟨p, _, rfl⟩
    simp [attrCall, isStopCall]
  · rw [List.countP_eq_zero]
    intro a ha
    rcases List.mem_map.mp ha with ⟨p, _, rfl⟩
    simp [attrCall, isCreateCall]
  · rw [List.filterMap_eq_nil_iff]
    intro a ha
    rcases List.mem_map.mp ha with ⟨p, _, rfl⟩
    rfl

theorem paramsFlatMap_counts (m : List (Nat × Nat)) (a b : ℚ) :
    (m.flatMap (fun p =>
      [ECall.setParamByName p.2 "RPM" a,
       ECall.setParamByName p.2 "Surface" b])).countP isStartCall = 0 ∧
    (m.flatMap (fun p =>
      [ECall.setParamByName p.2 "RPM" a,
       ECall.setParamByName p.2 "Surface" b])).countP isStopCall = 0 ∧
    (m.flatMap (fun p =>
      [ECall.setParamByName p.2 "RPM" a,
       ECall.setParamByName p.2 "Surface" b])).countP isCreateCall = 0 ∧
    (m.flatMap (fun p =>
      [ECall.setParamByName p.2 "RPM" a,
       ECall.setParamByName p.2 "Surface" b])).filterMap stopId = [] := by
  refine ⟨?_, ?_, ?_, ?_⟩
  · rw [List.countP_eq_zero]
    intro c hc
    rcases List.mem_flatMap.mp hc with ⟨p, _, hcp⟩
    simp only [List.mem_cons, List.not_mem_nil, or_false] at hcp
    rcases hcp with rfl | rfl <;> simp [isStartCall]
  · rw [List.countP_eq_zero]
    intro c hc
    rcases List.mem_flatMap.mp hc with ⟨p, _, hcp⟩
    simp only [List.mem_cons, List.not_mem_nil, or_false] at hcp
    rcases hcp with rfl | rfl <;> simp [isStopCall]
  · rw [List.countP_eq_zero]
    intro c hc
    rcases List.mem_flatMap.mp hc with ⟨p, _, hcp⟩
    simp only [List.mem_cons, List.not_mem_nil, or_false] at hcp
    rcases hcp with rfl | rfl <;> simp [isCreateCall]
  · rw [List.filterMap_eq_nil_iff]
    intro c hc
    rcases List.mem_flatMap.mp hc with ⟨p, _, hcp⟩
    simp only [List.mem_cons, List.not_mem_nil, or_false] at hcp
    rcases hcp with rfl | rfl <;> rfl

theorem drain_counts (m : List (Nat × Nat)) :
    (m.flatMap (fun p =>
      [ECall.stopAllowFadeout p.2, ECall.release p.2])).countP
        isStartCall = 0 ∧
    (m.flatMap (fun p =>
      [ECall.stopAllowFadeout p.2, ECall.release p.2])).countP
        isCreateCall = 0 ∧
    (m.flatMap (fun p =>
      [ECall.stopAllowFadeout p.2, ECall.release p.2])).filterMap stopId
      = m.map Prod.snd := by
  refine ⟨?_, ?_, ?_⟩
  · rw [List.countP_eq_zero]
    intro c hc
    rcases List.mem_flatMap.mp hc with ⟨p, _, hcp⟩
    simp only [List.mem_cons, List.not_mem_nil, or_false] at hcp
    rcases hcp with rfl | rfl <;> simp [isStartCall]
  · rw [List.countP_eq_zero]
    intro c hc
    rcases List.mem_flatMap.mp hc with ⟨p, _, hcp⟩
    simp only [List.mem_cons, List.not_mem_nil, or_false] at hcp
    rcases hcp with rfl | rfl <;> simp [isCreateCall]
  · induction m with
    | nil => rfl
    | cons p rest ih =>
      rw [List.flatMap_cons, List.filterMap_append, ih]
      rfl

theorem keyAction_unknown (n : Nat) (c : Char) (sh : Bool)
    (hc : c ∉ handledChars) :
    keyAction n ⟨KeyCode.char c, sh⟩ = HAction.none := by
  unfold keyAction
  dsimp only
  split <;> first
    | rfl
    | (exfalso; simp_all [handledChars, documentedChars])

/-- The per-key-press contract: at most one `start`, at most one instance
creation, no two stops of the same instance, and never both a start and a
stop in the same key press. -/
def DispatchContract (cs : List ECall) : Prop :=
  cs.countP isStartCall ≤ 1 ∧
  cs.countP isCreateCall ≤ 1 ∧
  (cs.filterMap stopId).Nodup ∧
  (cs.countP isStartCall = 0 ∨ cs.countP isStopCall = 0)

theorem dcNil : DispatchContract [] := by
  refine ⟨?_, ?_, ?_, Or.inl rfl⟩ <;> simp [DispatchContract]

theorem dcStopRel (v : Nat) :
    DispatchContract [ECall.stopAllowFadeout v, ECall.release v] := by
  refine ⟨?_, ?_, ?_, Or.inl rfl⟩
  · rw [show List.countP isStartCall
      [ECall.stopAllowFadeout v, ECall.release v] = 0 from rfl]
    omega
  · rw [show List.countP isCreateCall
      [ECall.stopAllowFadeout v, ECall.release v] = 0 from rfl]
    omega
  · rw [show List.filterMap stopId
      [ECall.stopAllowFadeout v, ECall.release v] = [v] from rfl]
    simp

theorem dcPlayOne (st : HarnessState) (i : Nat) :
    DispatchContract (playCallsPre st i
      ++ [ECall.start st.next_id, ECall.release st.next_id]) := by
  refine ⟨?_, ?_, ?_, Or.inr ?_⟩
  · rw [List.countP_append, pcp_start, show List.countP isStartCall
      [ECall.start st.next_id, ECall.release st.next_id] = 1 from rfl]
  · rw [List.countP_append, pcp_create, show List.countP isCreateCall
      [ECall.start st.next_id, ECall.release st.next_id] = 0 from rfl]
  · rw [List.filterMap_append, pcp_stopId, show List.filterMap stopId
      [ECall.start st.next_id, ECall.release st.next_id] = [] from rfl]
    simp
  · rw [List.countP_append, pcp_stop, show List.countP isStopCall
      [ECall.start st.next_id, ECall.release st.next_id] = 0 from rfl]

theorem dcPlayTracked (st : HarnessState) (i : Nat) :
    DispatchContract (playCallsPre st i ++ [ECall.start st.next_id]) := by
  refine ⟨?_, ?_, ?_, Or.inr ?_⟩
  · rw [List.countP_append, pcp_start, show List.countP isStartCall
      [ECall.start st.next_id] = 1 from rfl]
  · rw [List.countP_append, pcp_create, show List.countP isCreateCall
      [ECall.start st.next_id] = 0 from rfl]
  · rw [List.filterMap_append, pcp_stopId, show List.filterMap stopId
      [ECall.start st.next_id] = [] from rfl]
    simp
  · rw [List.countP_append, pcp_stop, show List.countP isStopCall
      [ECall.start st.next_id] = 0 from rfl]

theorem dcDrain (m : List (Nat × Nat)) (hnd : (m.map Prod.snd).Nodup) :
    DispatchContract (m.flatMap (fun p =>
      [ECall.stopAllowFadeout p.2, ECall.release p.2])) := by
  obtain ⟨h1, h2, h3⟩ := drain_counts m
  exact ⟨by rw [h1]; omega, by rw [h2]; omega, by rw [h3]; exact hnd,
    Or.inl h1⟩

theorem dcAttr (m : List (Nat × Nat)) (pos : Vec3) :
    DispatchContract (m.map (fun p => attrCall p.2 pos)) := by
  obtain ⟨h1, h2, h3, h4⟩ := attrMap_counts m pos
  exact ⟨by rw [h1]; omega, by rw [h3]; omega, by rw [h4]; simp,
    Or.inl h1⟩

theorem dcParams (m : List (Nat × Nat)) (a b : ℚ) :
    DispatchContract (m.flatMap (fun p =>
      [ECall.setParamByName p.2 "RPM" a,
       ECall.setParamByName p.2 "Surface" b])) := by
  obtain ⟨h1, h2, h3, h4⟩ := paramsFlatMap_counts m a b
  exact ⟨by rw [h1]; omega, by rw [h3]; omega, by rw [h4]; simp,
    Or.inl h1⟩

/-- C3 counterexample state: a run in which event slot 0 is active. -/
def c3State : HarnessState := runState (fun _ => true) [numKey 0]

/-- C3 counterexample: `=` is not in the documented key set (Esc, H, 1–6,
Space, WASD, Q/E, R, plus, minus), yet the dispatcher does not ignore it:
with one active instance it issues two engine calls (it behaves as the
unshifted `+`). -/
theorem c3_eq_key_not_ignored :
    ('=' ∉ documentedChars) ∧
    (dispatch noFail c3State ⟨KeyCode.char '=', false⟩).toOption.map
      (fun r => r.2.length) = some 2 := by
  constructor
  · decide
  · decide

/-- C3 (amended): in every reachable state, each polled key press issues
at most one engine-call sequence — at most one instance creation, at most
one start, no instance stopped twice, and never a start and a stop
together — and every char key outside the handled set (the documented
keys plus `=` as unshifted `+` and `_` as shifted `-`), as well as every
non-char non-Esc key, changes nothing and issues no engine call. -/
theorem c3_dispatch_contract (found : String → Bool) (keys : List KeyPress)
    (kp : KeyPress) (r : HarnessState × List ECall)
    (h : dispatch noFail (runState found keys) kp = .ok r) :
    DispatchContract r.2 ∧
    (∀ c : Char, kp.code = KeyCode.char c → c ∉ handledChars →
      r = (runState found keys, [])) ∧
    (kp.code = KeyCode.other → r = (runState found keys, [])) := by
  obtain ⟨st1, cs1, hrl, hInv, hed, hbk, hrs, hrh⟩ :=
    harness_run_spec found keys
  rw [hrs] at h ⊢
  refine ⟨?_, ?_, ?_⟩
  · unfold dispatch at h
    cases hka : keyAction st1.event_descriptions.length kp with
    | none =>
      rw [hka] at h
      injection h with h
      subst h
      exact dcNil
    | quit =>
      rw [hka] at h
      injection h with h
      subst h
      exact dcNil
    | toggleHelp =>
      rw [hka] at h
      injection h with h
      subst h
      exact dcNil
    | toggle i =>
      rw [hka] at h
      simp only [applyAction] at h
      by_cases hc : containsSlot st1.active_instances i = true
      · rw [if_pos hc] at h
        cases hlk : lookupSlot st1.active_instances i with
        | none =>
          rw [stop_event_none _ _ _ hlk] at h
          injection h with h
          subst h
          exact dcNil
        | some v =>
          rw [stop_event_noFail_some _ _ _ hlk] at h
          injection h with h
          subst h
          exact dcStopRel v
      · rw [if_neg hc] at h
        by_cases hlen : st1.event_descriptions.length ≤ i
        · rw [play_event_noFail_oob _ _ _ hlen] at h
          injection h with h
          subst h
          exact dcNil
        · push_neg at hlen
          by_cases hos :
              isOneShotPath (st1.event_descriptions.getD i "") = true
          · rw [play_event_noFail_oneShot _ _ hlen hos] at h
            injection h with h
            subst h
            exact dcPlayOne st1 i
          · rw [play_event_noFail_tracked _ _ hlen
              (Bool.not_eq_true _ ▸ Bool.eq_false_iff.mpr hos)] at h
            injection h with h
            subst h
            exact dcPlayTracked st1 i
    | stopAll =>
      rw [hka] at h
      simp only [applyAction] at h
      rw [stop_all_events_noFail] at h
      injection h with h
      subst h
      exact dcDrain _ hInv.valsNodup
    | move dx dy dz =>
      rw [hka] at h
      simp only [applyAction] at h
      rw [move_source_eq] at h
      injection h with h
      subst h
      exact dcAttr _ _
    | resetPos =>
      rw [hka] at h
      simp only [applyAction] at h
      rw [move_source_eq] at h
      injection h with h
      subst h
      exact dcAttr _ _
    | adjParam delta =>
      rw [hka] at h
      simp only [applyAction] at h
      rw [adjust_parameter_eq] at h
      injection h with h
      subst h
      exact dcParams _ _ _
  · intro c hcode hnotc
    obtain ⟨code, sh⟩ := kp
    dsimp only at hcode
    subst hcode
    unfold dispatch at h
    rw [keyAction_unknown _ c sh hnotc] at h
    injection h with h
    exact h.symm
  · intro hcode
    obtain ⟨code, sh⟩ := kp
    dsimp only at hcode
    subst hcode
    unfold dispatch at h
    rw [show keyAction st1.event_descriptions.length
      ⟨KeyCode.other, sh⟩ = HAction.none from rfl] at h
    injection h with h
    exact h.symm

/-- Concrete dispatch result used to witness C3: an unknown key pressed
in a reachable state. -/
def c3Res : HarnessState × List ECall :=
  (dispatch noFail (runState (fun _ => true) [])
    ⟨KeyCode.char 'x', false⟩).toOption.getD
      (initStateF (fun _ => true), [])

theorem c3_dispatch_contract_witness :
    ('x' ∉ handledChars) ∧
    DispatchContract c3Res.2 ∧
    c3Res = (runState (fun _ => true) [], []) :=
  ⟨by decide,
   (c3_dispatch_contract (fun _ => true) [] ⟨KeyCode.char 'x', false⟩
     c3Res rfl).1,
   (c3_dispatch_contract (fun _ => true) [] ⟨KeyCode.char 'x', false⟩
     c3Res rfl).2.1 'x' rfl (by decide)⟩
